import Mathlib

/-!
Verification of the MPAM device-management driver
(src/drivers/platform/mpam/mpam_devices.c).

The definitions below are a shallow embedding of the driver code. Pure
computations become Lean functions; register accesses become explicit event
traces; the kernel primitives (cpumask, ioremap, cross-call dispatch) become
explicit data. Constants and helpers that live in the internal header
mpam_internal.h (not part of the provided sources) are modelled from the
specification and marked as such.
-/

set_option linter.unusedVariables false

/-- Feature flags of one MPAM device, as set by mpam_device_probe.
Modelled from the spec: the enum itself lives in the missing internal header;
the constructor names follow the uses in mpam_devices.c. -/
inductive MpamFeature where
  | mpam_feat_ccap_part
  | mpam_feat_cpor_part
  | mpam_feat_mbw_part
  | mpam_feat_mbw_max
  | mpam_feat_mbw_min
  | mpam_feat_mbw_prop
  | mpam_feat_intpri_part
  | mpam_feat_intpri_part_0_low
  | mpam_feat_dspri_part
  | mpam_feat_dspri_part_0_low
  | mpam_feat_msmon_csu
  | mpam_feat_msmon_mbwu
deriving DecidableEq

open MpamFeature

/-- The capability record of one device (also used for the class-wide record,
which holds the same fields in struct mpam_class). The feature bitmask
becomes a finite set; mpam_set_feature is insert, mpam_clear_feature is
erase, mpam_has_feature is membership, bitwise AND is intersection. -/
structure MpamDevice where
  features : Finset MpamFeature := ∅
  cmax_wd : Nat := 0
  cpbm_wd : Nat := 0
  mbw_pbm_bits : Nat := 0
  bwa_wd : Nat := 0
  intpri_wd : Nat := 0
  dspri_wd : Nat := 0
  num_csu_mon : Nat := 0
  num_mbwu_mon : Nat := 0
  probed : Bool := false
  enable_error_irq : Bool := false
deriving DecidableEq

/-- Device freshly allocated by mpam_device_alloc (kzalloc: all fields zero). -/
def mpam_device_initial : MpamDevice := {}

/-- Linux GENMASK(h, l): bits l..h set (inclusive), as an unbounded natural;
callers truncate to the destination register width. For l > h the kernel
expression evaluates (on a 64-bit long, truncated to at most 16 used bits
by every caller in this file) to 0. -/
def GENMASK (h l : Nat) : Nat := if l ≤ h then 2 ^ (h + 1) - 2 ^ l else 0

/-- mpam_devices.c line 448: if the device does not match the class
feature/configuration, fix the class record: clear bitmap features whose
width disagrees, take the minimum of the numeric fields, and clear a
priority feature whose 0-low polarity disagrees. Each conditional
assignment of the C source becomes one conditional record update. -/
def __device_class_feature_mismatch (dev cls : MpamDevice) : MpamDevice :=
  let cls := { cls with features :=
    if cls.cpbm_wd ≠ dev.cpbm_wd then cls.features.erase mpam_feat_cpor_part
    else cls.features }
  let cls := { cls with features :=
    if cls.mbw_pbm_bits ≠ dev.mbw_pbm_bits then cls.features.erase mpam_feat_mbw_part
    else cls.features }
  let cls := { cls with num_csu_mon :=
    if cls.num_csu_mon ≠ dev.num_csu_mon then min cls.num_csu_mon dev.num_csu_mon
    else cls.num_csu_mon }
  let cls := { cls with num_mbwu_mon :=
    if cls.num_mbwu_mon ≠ dev.num_mbwu_mon then min cls.num_mbwu_mon dev.num_mbwu_mon
    else cls.num_mbwu_mon }
  let cls := { cls with bwa_wd :=
    if cls.bwa_wd ≠ dev.bwa_wd then min cls.bwa_wd dev.bwa_wd else cls.bwa_wd }
  let cls := { cls with intpri_wd :=
    if cls.intpri_wd ≠ dev.intpri_wd then min cls.intpri_wd dev.intpri_wd
    else cls.intpri_wd }
  let cls := { cls with dspri_wd :=
    if cls.dspri_wd ≠ dev.dspri_wd then min cls.dspri_wd dev.dspri_wd
    else cls.dspri_wd }
  let cls := { cls with features :=
    if ¬ ((mpam_feat_intpri_part_0_low ∈ cls.features) ↔
          (mpam_feat_intpri_part_0_low ∈ dev.features)) then
      cls.features.erase mpam_feat_intpri_part
    else cls.features }
  let cls := { cls with features :=
    if ¬ ((mpam_feat_dspri_part_0_low ∈ cls.features) ↔
          (mpam_feat_dspri_part_0_low ∈ dev.features)) then
      cls.features.erase mpam_feat_dspri_part
    else cls.features }
  cls

/-- One iteration of the inner loop of mpam_enable_squash_features:
run the mismatch fixup against the class record, then intersect the class
feature set with this device (class->features &= dev->features). -/
def squashStep (cls dev : MpamDevice) : MpamDevice :=
  let cls := __device_class_feature_mismatch dev cls
  { cls with features := cls.features ∩ dev.features }

/-- The seeding copy in mpam_enable_squash_features: the class record takes
the first device's features and properties verbatim (cmax_wd is not copied,
exactly as in the source). -/
def squashSeed (cls0 dev : MpamDevice) : MpamDevice :=
  { cls0 with
    features := dev.features
    cpbm_wd := dev.cpbm_wd
    mbw_pbm_bits := dev.mbw_pbm_bits
    bwa_wd := dev.bwa_wd
    intpri_wd := dev.intpri_wd
    dspri_wd := dev.dspri_wd
    num_csu_mon := dev.num_csu_mon
    num_mbwu_mon := dev.num_mbwu_mon }

/-- mpam_enable_squash_features, for one class. The class is a list of
components, each a list of devices. If the class has components, the class
record is seeded from the first component's first device, then every device
of every component is folded through squashStep. An empty first component
makes the source WARN and break, leaving the record untouched. -/
def mpam_enable_squash_features (comps : List (List MpamDevice))
    (cls0 : MpamDevice) : MpamDevice :=
  match comps with
  | [] => cls0
  | [] :: _ => cls0
  | (d0 :: _) :: _ => (comps.flatten).foldl squashStep (squashSeed cls0 d0)

/-! ## Register-level model: addresses, traces, errno values -/

/-- Errno values used by the driver (linux/errno.h). -/
def ENOMEM : Int := 12
def EINVAL : Int := 22
def EOPNOTSUPP : Int := 95
/-- EIO, named so that the identifier does not end in the letters I O. -/
def EIO_errno : Int := 5

/-- Register offsets and field constants. Modelled from the spec: the
numeric values come from the missing internal header (the MPAM architecture
register map); the claims only rely on the registers being distinct and on
the bitmap registers forming disjoint ascending word arrays. -/
def MPAMF_IDR : Nat := 0x0000
def MPAMF_AIDR : Nat := 0x0020
def MPAMF_ECR : Nat := 0x00F0
def MPAMF_ESR : Nat := 0x00F8
def MPAMF_CCAP_IDR : Nat := 0x0038
def MPAMF_CPOR_IDR : Nat := 0x0030
def MPAMF_MBW_IDR : Nat := 0x0040
def MPAMF_PRI_IDR : Nat := 0x0048
def MPAMF_MSMON_IDR : Nat := 0x0080
def MPAMF_CSUMON_IDR : Nat := 0x0088
def MPAMF_MBWUMON_IDR : Nat := 0x0090
def MPAMCFG_PART_SEL : Nat := 0x0100
def MPAMCFG_CMAX : Nat := 0x0108
def MPAMCFG_MBW_MIN : Nat := 0x0200
def MPAMCFG_MBW_MAX : Nat := 0x0208
def MPAMCFG_MBW_PROP : Nat := 0x0500
def MPAMCFG_PRI : Nat := 0x0400
def MPAMCFG_CPBM : Nat := 0x1000
def MPAMCFG_MBW_PBM : Nat := 0x2000
def MPAMCFG_PRI_DSPRI_SHIFT : Nat := 16
def MPAMF_ECR_INTEN : Nat := 1
def MPAM_ARCHITECTURE_V1 : Nat := 0x11

/-- One observable action on the memory-mapped device page: a 32-bit
register write, the write-ordering barrier wmb(), or the completion
barrier mb(). Reads of identification registers are modelled separately
as an oracle and do not appear in traces. -/
inductive RegEvent where
  | write (reg : Nat) (val : Nat)
  | wmb
  | mb
deriving DecidableEq

/-- mpam_reset_device_bitmap: write an all-ones bitmap of width wd starting
at register reg: first wd / 32 full 32-bit words of ~0, then, if
GENMASK(wd mod 32, 0) is non-zero (it always is, since GENMASK is
inclusive of bit 0), one more word holding GENMASK(wd mod 32, 0). -/
def mpam_reset_device_bitmap (reg wd : Nat) : List RegEvent :=
  ((List.range (wd / 32)).map fun i => RegEvent.write (reg + 4 * i) 0xFFFFFFFF)
  ++ (if GENMASK (wd % 32) 0 ≠ 0 then
        [RegEvent.write (reg + 4 * (wd / 32)) (GENMASK (wd % 32) 0)]
      else [])

/-- The u16 default written for intpri/dspri by mpam_reset_device_partid:
GENMASK(wd, 0) when the corresponding 0-is-low feature is present,
0 otherwise ("aces high"), combined into the MPAMCFG_PRI value. -/
def mpam_reset_pri_val (dev : MpamDevice) : Nat :=
  let intpri := GENMASK dev.intpri_wd 0 % 2 ^ 16
  let dspri := GENMASK dev.dspri_wd 0 % 2 ^ 16
  let intpri := if mpam_feat_intpri_part_0_low ∈ dev.features then intpri else 0
  let dspri := if mpam_feat_dspri_part_0_low ∈ dev.features then dspri else 0
  (if mpam_feat_intpri_part ∈ dev.features then intpri else 0) |||
  (if mpam_feat_dspri_part ∈ dev.features then dspri <<< MPAMCFG_PRI_DSPRI_SHIFT
   else 0)

/-- Modelled from the spec: mpam_has_part_sel lives in the missing internal
header; per the spec the reset of a partition id proceeds exactly when the
device has at least one feature configured through the partition selector. -/
def mpam_has_part_sel (s : Finset MpamFeature) : Bool :=
  decide (s ∩ ({mpam_feat_ccap_part, mpam_feat_cpor_part, mpam_feat_mbw_part,
    mpam_feat_mbw_max, mpam_feat_mbw_min, mpam_feat_mbw_prop,
    mpam_feat_intpri_part, mpam_feat_dspri_part} : Finset MpamFeature) ≠ ∅)

/-- The per-feature default writes of mpam_reset_device_partid: one default
write (or bitmap write sequence) per present feature, in source order. -/
def mpam_reset_partid_writes (dev : MpamDevice) : List RegEvent :=
  (if mpam_feat_ccap_part ∈ dev.features then
      [RegEvent.write MPAMCFG_CMAX (GENMASK dev.cmax_wd 0 % 2 ^ 16)] else [])
  ++ (if mpam_feat_cpor_part ∈ dev.features then
      mpam_reset_device_bitmap MPAMCFG_CPBM dev.cpbm_wd else [])
  ++ (if mpam_feat_mbw_part ∈ dev.features then
      mpam_reset_device_bitmap MPAMCFG_MBW_PBM dev.mbw_pbm_bits else [])
  ++ (if mpam_feat_mbw_min ∈ dev.features then
      [RegEvent.write MPAMCFG_MBW_MIN (GENMASK 15 dev.bwa_wd % 2 ^ 16)]
     else [])
  ++ (if mpam_feat_mbw_max ∈ dev.features then
      [RegEvent.write MPAMCFG_MBW_MAX (GENMASK 15 dev.bwa_wd % 2 ^ 16)]
     else [])
  ++ (if mpam_feat_mbw_prop ∈ dev.features then
      [RegEvent.write MPAMCFG_MBW_PROP (GENMASK 15 dev.bwa_wd % 2 ^ 16)]
     else [])
  ++ (if mpam_feat_intpri_part ∈ dev.features ∨
         mpam_feat_dspri_part ∈ dev.features then
      [RegEvent.write MPAMCFG_PRI (mpam_reset_pri_val dev)] else [])

/-- mpam_reset_device_partid: the register trace emitted for one partition
id. Select the partid, wmb, then one default write (or bitmap write
sequence) per present feature, then mb. -/
def mpam_reset_device_partid (dev : MpamDevice) (partid : Nat) :
    List RegEvent :=
  if ¬ mpam_has_part_sel dev.features then []
  else
    [RegEvent.write MPAMCFG_PART_SEL partid, RegEvent.wmb]
    ++ mpam_reset_partid_writes dev
    ++ [RegEvent.mb]

/-- struct mpam_component_cfg_update. The header is missing; the uses in
mpam_devices.c show mpam_cfg is a plain value written with writel (0 is
rejected as "empty configuration"). -/
structure mpam_component_cfg_update where
  feat : MpamFeature
  partid : Nat
  mpam_cfg : Nat
deriving DecidableEq

/-- __apply_config: apply one feature configuration to one device.
Returns the errno result and the emitted register trace. -/
def __apply_config (dev : MpamDevice) (arg : mpam_component_cfg_update) :
    Int × List RegEvent :=
  if ¬ (arg.feat ∈ dev.features) then (-EOPNOTSUPP, [])
  else if arg.mpam_cfg = 0 then (-EINVAL, [])
  else
    match (match arg.feat with
           | mpam_feat_mbw_max => some MPAMCFG_MBW_MAX
           | mpam_feat_cpor_part => some MPAMCFG_CPBM
           | mpam_feat_mbw_part => some MPAMCFG_MBW_PBM
           | _ => none) with
    | none => (-EIO_errno, [])
    | some reg =>
      (0, [RegEvent.write MPAMCFG_PART_SEL arg.partid, RegEvent.wmb,
           RegEvent.write reg (arg.mpam_cfg % 2 ^ 32), RegEvent.mb])

/-- mpam_reset_device: enable the error interrupt if requested, then for
every partid in 0 ..< max_partid (the system-wide minimum), emit the
unrestricted defaults and reapply the policy-layer converted configuration
if there is one; an error from that apply is only logged.
getcfg models mpam_resctrl_get_converted_config, which belongs to the
external policy layer. -/
def mpam_reset_device (dev : MpamDevice) (max_partid : Nat)
    (getcfg : Nat → Option mpam_component_cfg_update) : List RegEvent :=
  (if dev.enable_error_irq then [RegEvent.write MPAMF_ECR MPAMF_ECR_INTEN]
   else [])
  ++ (List.range max_partid).flatMap fun partid =>
      mpam_reset_device_partid dev partid
      ++ (match getcfg partid with
          | some cfg => (__apply_config dev cfg).2
          | none => [])

/-- mpam_device_apply_config: with a configuration, apply it and return its
result; with none (a reset), run mpam_reset_device and return 0. -/
def mpam_device_apply_config (dev : MpamDevice)
    (cfg : Option mpam_component_cfg_update) (max_partid : Nat)
    (getcfg : Nat → Option mpam_component_cfg_update) :
    Int × List RegEvent :=
  match cfg with
  | some c => __apply_config dev c
  | none => (0, mpam_reset_device dev max_partid getcfg)

/-! ## Capability probing (mpam_device_probe) -/

/-- struct mpam_sysprops: the system-wide discovered minima. -/
structure MpamSysprops where
  max_partid : Nat
  max_pmg : Nat
deriving DecidableEq

/-- mpam_probe_update_sysprops: monotone minimum update. -/
def mpam_probe_update_sysprops (sys : MpamSysprops)
    (max_partid max_pmg : Nat) : MpamSysprops :=
  ⟨min sys.max_partid max_partid, min sys.max_pmg max_pmg⟩

/-- Field layout constants of the identification registers. Modelled from
the spec: the exact masks live in the missing internal header; the claims
do not depend on the particular offsets. -/
def MPAMF_IDR_PARTID_MAX_MASK : Nat := 0xFFFF
def MPAMF_IDR_PMG_MAX_SHIFT : Nat := 16
def MPAMF_IDR_PMG_MAX_MASK : Nat := 0xFF0000
def MPAMF_IDR_HAS_CCAP_PART : Nat := 1 <<< 24
def MPAMF_IDR_HAS_CPOR_PART : Nat := 1 <<< 25
def MPAMF_IDR_HAS_MBW_PART : Nat := 1 <<< 26
def MPAMF_IDR_HAS_PRI_PART : Nat := 1 <<< 27
def MPAMF_IDR_HAS_MSMON : Nat := 1 <<< 30
def MPAMF_CCAP_IDR_CMAX_WD : Nat := 0x3F
def MPAMF_CPOR_IDR_CPBM_WD : Nat := 0xFFFF
def MPAMF_MBW_IDR_BWA_WD : Nat := 0x3F
def MPAMF_MBW_IDR_HAS_MIN : Nat := 1 <<< 10
def MPAMF_MBW_IDR_HAS_MAX : Nat := 1 <<< 11
def MPAMF_MBW_IDR_HAS_PROP : Nat := 1 <<< 12
def MPAMF_MBW_IDR_HAS_PBM : Nat := 1 <<< 14
def MPAMF_MBW_IDR_BWPBM_WD : Nat := 0x1FFF <<< 16
def MPAMF_MBW_IDR_BWPBM_WD_SHIFT : Nat := 16
def MPAMF_PRI_IDR_HAS_INTPRI : Nat := 1
def MPAMF_PRI_IDR_INTPRI_0_IS_LOW : Nat := 1 <<< 1
def MPAMF_PRI_IDR_INTPRI_WD : Nat := 0x3F <<< 4
def MPAMF_PRI_IDR_INTPRI_WD_SHIFT : Nat := 4
def MPAMF_PRI_IDR_HAS_DSPRI : Nat := 1 <<< 16
def MPAMF_PRI_IDR_DSPRI_0_IS_LOW : Nat := 1 <<< 17
def MPAMF_PRI_IDR_DSPRI_WD : Nat := 0x3F <<< 20
def MPAMF_PRI_IDR_DSPRI_WD_SHIFT : Nat := 20
def MPAMF_MSMON_IDR_MSMON_CSU : Nat := 1 <<< 16
def MPAMF_MSMON_IDR_MSMON_MBWU : Nat := 1 <<< 17
def MPAMF_CSUMON_IDR_NUM_MON : Nat := 0xFFFF
def MPAMF_MBWUMON_IDR_NUM_MON : Nat := 0xFFFF

/-- The cache-capacity block of mpam_device_probe. -/
def mpam_probe_ccap (dev : MpamDevice) (hw : Nat → Nat) : MpamDevice :=
  let ccap_features := hw MPAMF_CCAP_IDR
  let dev := { dev with cmax_wd := ccap_features &&& MPAMF_CCAP_IDR_CMAX_WD }
  if dev.cmax_wd ≠ 0 then
    { dev with features := insert mpam_feat_ccap_part dev.features }
  else dev

/-- The cache-portion block of mpam_device_probe. -/
def mpam_probe_cpor (dev : MpamDevice) (hw : Nat → Nat) : MpamDevice :=
  let cpor_features := hw MPAMF_CPOR_IDR
  let dev := { dev with cpbm_wd := cpor_features &&& MPAMF_CPOR_IDR_CPBM_WD }
  if dev.cpbm_wd ≠ 0 then
    { dev with features := insert mpam_feat_cpor_part dev.features }
  else dev

/-- The memory-bandwidth block of mpam_device_probe. -/
def mpam_probe_mbw (dev : MpamDevice) (hw : Nat → Nat) : MpamDevice :=
  let mbw_features := hw MPAMF_MBW_IDR
  let dev := { dev with mbw_pbm_bits :=
    (mbw_features &&& MPAMF_MBW_IDR_BWPBM_WD) >>> MPAMF_MBW_IDR_BWPBM_WD_SHIFT }
  let dev :=
    if dev.mbw_pbm_bits ≠ 0 ∧ mbw_features &&& MPAMF_MBW_IDR_HAS_PBM ≠ 0 then
      { dev with features := insert mpam_feat_mbw_part dev.features }
    else dev
  let dev := { dev with bwa_wd := mbw_features &&& MPAMF_MBW_IDR_BWA_WD }
  let dev :=
    if dev.bwa_wd ≠ 0 ∧ mbw_features &&& MPAMF_MBW_IDR_HAS_MAX ≠ 0 then
      { dev with features := insert mpam_feat_mbw_max dev.features }
    else dev
  let dev :=
    if dev.bwa_wd ≠ 0 ∧ mbw_features &&& MPAMF_MBW_IDR_HAS_MIN ≠ 0 then
      { dev with features := insert mpam_feat_mbw_min dev.features }
    else dev
  if dev.bwa_wd ≠ 0 ∧ mbw_features &&& MPAMF_MBW_IDR_HAS_PROP ≠ 0 then
    { dev with features := insert mpam_feat_mbw_prop dev.features }
  else dev

/-- The priority block of mpam_device_probe. -/
def mpam_probe_pri (dev : MpamDevice) (hw : Nat → Nat) : MpamDevice :=
  let pri_features := hw MPAMF_PRI_IDR
  let dev := { dev with intpri_wd :=
    (pri_features &&& MPAMF_PRI_IDR_INTPRI_WD) >>> MPAMF_PRI_IDR_INTPRI_WD_SHIFT }
  let dev : MpamDevice :=
    if dev.intpri_wd ≠ 0 ∧ pri_features &&& MPAMF_PRI_IDR_HAS_INTPRI ≠ 0 then
      let dev := { dev with features := insert mpam_feat_intpri_part dev.features }
      if pri_features &&& MPAMF_PRI_IDR_INTPRI_0_IS_LOW ≠ 0 then
        { dev with features := insert mpam_feat_intpri_part_0_low dev.features }
      else dev
    else dev
  let dev : MpamDevice := { dev with dspri_wd :=
    (pri_features &&& MPAMF_PRI_IDR_DSPRI_WD) >>> MPAMF_PRI_IDR_DSPRI_WD_SHIFT }
  let dev : MpamDevice :=
    if dev.dspri_wd ≠ 0 ∧ pri_features &&& MPAMF_PRI_IDR_HAS_DSPRI ≠ 0 then
      let dev : MpamDevice :=
        { dev with features := insert mpam_feat_dspri_part dev.features }
      if pri_features &&& MPAMF_PRI_IDR_DSPRI_0_IS_LOW ≠ 0 then
        { dev with features := insert mpam_feat_dspri_part_0_low dev.features }
      else dev
    else dev
  dev

/-- The monitoring block of mpam_device_probe. -/
def mpam_probe_msmon (dev : MpamDevice) (hw : Nat → Nat) : MpamDevice :=
  let msmon_features := hw MPAMF_MSMON_IDR
  let dev : MpamDevice :=
    if msmon_features &&& MPAMF_MSMON_IDR_MSMON_CSU ≠ 0 then
      let csumonidr := hw MPAMF_CSUMON_IDR
      let dev := { dev with num_csu_mon := csumonidr &&& MPAMF_CSUMON_IDR_NUM_MON }
      if dev.num_csu_mon ≠ 0 then
        { dev with features := insert mpam_feat_msmon_csu dev.features }
      else dev
    else dev
  let dev : MpamDevice :=
    if msmon_features &&& MPAMF_MSMON_IDR_MSMON_MBWU ≠ 0 then
      let mbwumonidr := hw MPAMF_MBWUMON_IDR
      let dev : MpamDevice :=
        { dev with num_mbwu_mon := mbwumonidr &&& MPAMF_MBWUMON_IDR_NUM_MON }
      if dev.num_mbwu_mon ≠ 0 then
        { dev with features := insert mpam_feat_msmon_mbwu dev.features }
      else dev
    else dev
  dev

/-- mpam_device_probe: read the architecture id register from the hardware
oracle hw; on mismatch fail with -EIO leaving device and sysprops
untouched. Otherwise read the feature-presence register, run each
conditionally-present feature-group block, update the system-wide minima,
and mark the device probed. Returns (errno, device, sysprops). -/
def mpam_device_probe (dev : MpamDevice) (hw : Nat → Nat)
    (sys : MpamSysprops) : Int × MpamDevice × MpamSysprops :=
  if hw MPAMF_AIDR ≠ MPAM_ARCHITECTURE_V1 then (-EIO_errno, dev, sys)
  else
    let hwfeatures := hw MPAMF_IDR
    let max_partid := hwfeatures &&& MPAMF_IDR_PARTID_MAX_MASK
    let max_pmg := (hwfeatures &&& MPAMF_IDR_PMG_MAX_MASK) >>>
                     MPAMF_IDR_PMG_MAX_SHIFT
    let sys := mpam_probe_update_sysprops sys max_partid max_pmg
    let dev := if hwfeatures &&& MPAMF_IDR_HAS_CCAP_PART ≠ 0 then
                 mpam_probe_ccap dev hw else dev
    let dev := if hwfeatures &&& MPAMF_IDR_HAS_CPOR_PART ≠ 0 then
                 mpam_probe_cpor dev hw else dev
    let dev := if hwfeatures &&& MPAMF_IDR_HAS_MBW_PART ≠ 0 then
                 mpam_probe_mbw dev hw else dev
    let dev := if hwfeatures &&& MPAMF_IDR_HAS_PRI_PART ≠ 0 then
                 mpam_probe_pri dev hw else dev
    let dev := if hwfeatures &&& MPAMF_IDR_HAS_MSMON ≠ 0 then
                 mpam_probe_msmon dev hw else dev
    (0, { dev with probed := true }, sys)

/-- A sequence of probe attempts against (possibly different) hardware
register values, threading the device and sysprops state. -/
def mpam_probe_seq (dev : MpamDevice) (sys : MpamSysprops) :
    List (Nat → Nat) → MpamDevice × MpamSysprops
  | [] => (dev, sys)
  | hw :: rest =>
    let r := mpam_device_probe dev hw sys
    mpam_probe_seq r.2.1 r.2.2 rest

/-! ## Error interrupt handling (mpam_handle_error_irq) -/

/-- MPAMF_ESR field layout. Modelled from the spec: the error-code field is
a multi-bit field at a fixed offset of the error-status register (4 bits at
offset 24 in the architecture). -/
def MPAMF_ESR_ERRCODE_SHIFT : Nat := 24
def MPAMF_ESR_ERRCODE : Nat := 0xF <<< 24

/-- Number of architected error codes; the error-string table has exactly
this many entries (codes 0 to 7). Modelled from the spec: the seven named
codes plus the "none" code. -/
def _MPAM_NUM_ERRCODE : Nat := 8

/-- The error-string table mpam_msc_err_str, indexed by error code. -/
def mpam_msc_err_str : List String :=
  ["No Error",
   "Out of range PARTID selected",
   "Out of range PARTID requested",
   "Out of range PMG requested",
   "Out of range Monitor selected",
   "Out of range Monitor:PARTID or PMG written",
   "Out or range Internal-PARTID written",
   "Internal-PARTID set but not expected"]

/-- What the handler logs: by name it reads mpam_msc_err_str at the given
index (an index not below the table length is an out-of-bounds read);
numerically it prints the code itself. -/
inductive LogEvent where
  | byName (idx : Nat)
  | byNumber (code : Nat)
deriving DecidableEq

inductive IrqResult where
  | irq_none
  | irq_handled
deriving DecidableEq

/-- mpam_handle_error_irq: read the error-status register (value esr),
extract the error code; code 0 is not ours. Otherwise log (by name when
device_errcode <= _MPAM_NUM_ERRCODE, else numerically) and clear the
register by writing zero. -/
def mpam_handle_error_irq (esr : Nat) :
    IrqResult × Option LogEvent × List RegEvent :=
  let device_errcode := (esr &&& MPAMF_ESR_ERRCODE) >>> MPAMF_ESR_ERRCODE_SHIFT
  if device_errcode = 0 then (IrqResult.irq_none, none, [])
  else
    let log := if device_errcode ≤ _MPAM_NUM_ERRCODE then
        LogEvent.byName device_errcode
      else LogEvent.byNumber device_errcode
    (IrqResult.irq_handled, some log, [RegEvent.write MPAMF_ESR 0])

/-! ## Configuration Broadcaster (mpam_component_apply_all) -/

/-- A device as seen by the broadcast protocol: an identifier (used to name
the device in the attempt log and to index the per-device apply result)
and its online affinity cpumask. -/
structure BDevice where
  devid : Nat
  online_affinity : Finset Nat
deriving DecidableEq

/-- The mutable part of struct mpam_device_cfg_update (updated_on and
first_error), extended with the observation log: the devices to which an
apply was attempted and the cpus to which a synchronous remote dispatch
(smp_call_function_single) was issued, both in order. -/
structure ApplyState where
  updated_on : Finset Nat
  first_error : Int
  attempts : List Nat
  dispatches : List Nat
deriving DecidableEq

/-- if (err) cmpxchg(&cfg_update->first_error, 0, err): record err as the
first error only if no error has been recorded yet. -/
def record_first_error (st : ApplyState) (err : Int) : ApplyState :=
  if err ≠ 0 then
    { st with first_error := if st.first_error = 0 then err else st.first_error }
  else st

/-- One device of the loop body of mpam_component_apply_all_local, running
on cpu: skip the device if its online affinity intersects updated_on or if
cpu is not in its online affinity, otherwise attempt the apply and record
any error. applyRes gives the result of mpam_device_apply_config for each
device. -/
def apply_all_local_step (applyRes : Nat → Int) (cpu : Nat)
    (st : ApplyState) (dev : BDevice) : ApplyState :=
  if dev.online_affinity ∩ st.updated_on ≠ ∅ then st
  else if cpu ∉ dev.online_affinity then st
  else record_first_error { st with attempts := st.attempts ++ [dev.devid] }
         (applyRes dev.devid)

/-- mpam_component_apply_all_local: update all devices of the component
reachable from cpu that are not yet covered, then mark cpu updated. -/
def mpam_component_apply_all_local (applyRes : Nat → Int) (cpu : Nat)
    (devs : List BDevice) (st : ApplyState) : ApplyState :=
  let st := devs.foldl (apply_all_local_step applyRes cpu) st
  { st with updated_on := insert cpu st.updated_on }

/-- cpumask_any: an arbitrary cpu of the mask (the kernel picks the first
set bit; the minimum element here). -/
def cpumask_any (s : Finset Nat) : Nat := WithBot.unbot' 0 s.min

/-- The second loop of mpam_component_apply_all: for every device still
unreached, unless a first error has been recorded (break), pick one cpu of
its online affinity and synchronously run the local pass there. -/
def mpam_component_apply_all_remote (applyRes : Nat → Int)
    (allDevs : List BDevice) : List BDevice → ApplyState → ApplyState
  | [], st => st
  | dev :: rest, st =>
    if st.first_error ≠ 0 then st
    else if dev.online_affinity ∩ st.updated_on ≠ ∅ then
      mpam_component_apply_all_remote applyRes allDevs rest st
    else
      let cpu := cpumask_any dev.online_affinity
      let st := mpam_component_apply_all_local applyRes cpu allDevs
                  { st with dispatches := st.dispatches ++ [cpu] }
      mpam_component_apply_all_remote applyRes allDevs rest st

/-- mpam_component_apply_all: run the local pass if the calling cpu is in
the component firmware affinity, then cover the remaining devices by
remote dispatch. The returned state carries the result
(first_error) and the observation logs. -/
def mpam_component_apply_all (applyRes : Nat → Int) (fw_affinity : Finset Nat)
    (devs : List BDevice) (initCpu : Nat) : ApplyState :=
  let st : ApplyState := ⟨∅, 0, [], []⟩
  let st := if initCpu ∈ fw_affinity then
      mpam_component_apply_all_local applyRes initCpu devs st
    else st
  mpam_component_apply_all_remote applyRes devs devs st

/-- The first non-zero apply result along a list of attempted devices
(0 when every attempt succeeded): what cmpxchg(&first_error, 0, err)
accumulates over the attempts. -/
def first_error_of (applyRes : Nat → Int) (attempts : List Nat) : Int :=
  ((attempts.map applyRes).filter (fun e => e ≠ 0)).headD 0

/-! ## Topology creation (__mpam_device_create) -/

deriving instance DecidableEq for Except

/-- enum mpam_class_types. Modelled from the spec: only the cache versus
non-cache distinction matters to mpam_devices.c. -/
inductive MpamClassType where
  | MPAM_CLASS_CACHE
  | MPAM_CLASS_MEMORY
  | MPAM_CLASS_UNKNOWN
deriving DecidableEq

/-- A device as seen by topology creation: firmware affinity, hardware page
address, and the result of ioremap (none models a NULL mapping). The C
object is allocated zeroed, linked into both lists, and then initialised
through the same pointer; the model inserts the final field values. -/
structure CDevice where
  fw_affinity : Finset Nat := ∅
  hwpage_address : Nat := 0
  mapped_hwpage : Option Nat := none
deriving DecidableEq

/-- struct mpam_component: platform id, firmware affinity, owned devices
(list head insertion order, newest first). -/
structure CComponent where
  comp_id : Int
  fw_affinity : Finset Nat := ∅
  devices : List CDevice := []
deriving DecidableEq

/-- struct mpam_class: topology level, class type, owned components. -/
structure CClass where
  level : Nat
  ctype : MpamClassType
  components : List CComponent := []
deriving DecidableEq

/-- The discovery-time global state: the class list (mpam_classes_rcu) and
the flat device list (mpam_all_devices); both use head insertion. -/
structure MpamTopology where
  classes : List CClass := []
  all_devices : List CDevice := []
deriving DecidableEq

/-- Replace the first element satisfying p by f applied to it (models an
in-place update of the list entry found by a linear scan). -/
def updateFirst (p : α → Bool) (f : α → α) : List α → List α
  | [] => []
  | a :: l => if p a then f a :: l else a :: updateFirst p f l

/-- The class lookup predicate of mpam_class_get. -/
def classMatches (level_idx : Nat) (ty : MpamClassType) (c : CClass) : Bool :=
  c.ctype == ty && c.level == level_idx

/-- mpam_class_get with alloc = true: find the first class of this type and
level, or allocate a fresh one (kzalloc success given by the oracle) and
add it at the head of the class list. -/
def mpam_class_get (st : MpamTopology) (level_idx : Nat) (ty : MpamClassType)
    (kzalloc_ok : Bool) : Except Int CClass × MpamTopology :=
  match st.classes.find? (classMatches level_idx ty) with
  | some c => (.ok c, st)
  | none =>
    if kzalloc_ok then
      let c : CClass := ⟨level_idx, ty, []⟩
      (.ok c, { st with classes := c :: st.classes })
    else (.error (-ENOMEM), st)

/-- mpam_component_get with alloc = true, relative to one class: find the
component by id or allocate a fresh one at the head of the component
list. -/
def mpam_component_get (c : CClass) (comp_id : Int) (kzalloc_ok : Bool) :
    Except Int CComponent × CClass :=
  match c.components.find? (fun comp => comp.comp_id == comp_id) with
  | some comp => (.ok comp, c)
  | none =>
    if kzalloc_ok then
      let comp : CComponent := ⟨comp_id, ∅, []⟩
      (.ok comp, { c with components := comp :: c.components })
    else (.error (-ENOMEM), c)

/-- mpam_device_alloc: link the device into the component device list and
the global device list (both at the head). The C allocates a zeroed device
and initialises it through the returned pointer; the model takes the final
field values. -/
def mpam_device_alloc (dev : CDevice) (comp : CComponent)
    (all_devices : List CDevice) : CComponent × List CDevice :=
  ({ comp with devices := dev :: comp.devices }, dev :: all_devices)

/-- Write back an updated class into the topology (the entry found by the
same linear scan as mpam_class_get). -/
def topology_put_class (st : MpamTopology) (level_idx : Nat)
    (ty : MpamClassType) (cls : CClass) : MpamTopology :=
  { st with
    classes := updateFirst (classMatches level_idx ty) (fun _ => cls) st.classes }

/-- Write back an updated component into a class (the entry found by the
same linear scan as mpam_component_get). -/
def class_put_component (c : CClass) (comp_id : Int) (comp : CComponent) :
    CClass :=
  { c with
    components := updateFirst (fun cp => cp.comp_id == comp_id)
      (fun _ => comp) c.components }

/-- __mpam_device_create: get or create the class and component, extend the
component firmware affinity for non-cache classes, allocate and link the
device, then bind the register window (ioremap). A NULL affinity means
cpu_possible_mask. Returns the created device or the first error, plus the
resulting topology state. -/
def __mpam_device_create (st : MpamTopology) (level_idx : Nat)
    (ty : MpamClassType) (component_id : Int)
    (fw_affinity : Option (Finset Nat)) (hwpage_address : Nat)
    (possible : Finset Nat) (ioremap : Nat → Option Nat)
    (class_kzalloc_ok comp_kzalloc_ok dev_kzalloc_ok : Bool) :
    Except Int CDevice × MpamTopology :=
  let fw := fw_affinity.getD possible
  match mpam_class_get st level_idx ty class_kzalloc_ok with
  | (.error e, st1) => (.error e, st1)
  | (.ok cls, st1) =>
    match mpam_component_get cls component_id comp_kzalloc_ok with
    | (.error e, cls2) => (.error e, topology_put_class st1 level_idx ty cls2)
    | (.ok comp, cls2) =>
      let comp := if ty ≠ MpamClassType.MPAM_CLASS_CACHE then
          { comp with fw_affinity := comp.fw_affinity ∪ fw }
        else comp
      if dev_kzalloc_ok then
        let dev : CDevice :=
          { fw_affinity := fw, hwpage_address := hwpage_address,
            mapped_hwpage := ioremap hwpage_address }
        let r := mpam_device_alloc dev comp st1.all_devices
        let st2 : MpamTopology :=
          { topology_put_class st1 level_idx ty
              (class_put_component cls2 component_id r.1) with
            all_devices := r.2 }
        let res : Except Int CDevice :=
          match ioremap hwpage_address with
          | some _ => .ok dev
          | none => .error (-ENOMEM)
        (res, st2)
      else
        (.error (-ENOMEM),
         topology_put_class st1 level_idx ty
           (class_put_component cls2 component_id comp))

/-- Concrete example devices: cache-portion partitioning with bitmap
widths 13 and 17 (the spec scenario for a width mismatch). -/
def exDevW13 : MpamDevice := { features := {mpam_feat_cpor_part}, cpbm_wd := 13 }
def exDevW17 : MpamDevice := { features := {mpam_feat_cpor_part}, cpbm_wd := 17 }

/-- Concrete example device for the reset default values: bandwidth minimum
present with a 4-bit bandwidth-assignment width, cache-portion partitioning
present with a 13-bit portion bitmap. -/
def exDevC3 : MpamDevice :=
  { features := {mpam_feat_mbw_min, mpam_feat_cpor_part},
    bwa_wd := 4, cpbm_wd := 13 }

/-- A broadcast device with a single-core online affinity, built from an
(id, core) pair: the scenario of one device per distinct core. -/
def singDev (p : Nat × Nat) : BDevice := ⟨p.1, {p.2}⟩

/-- The pairs a local pass running on core c applies, given the
already-updated set U: those with core c not yet covered (in order). -/
def pendingFor (U : Finset Nat) (c : Nat) : List (Nat × Nat) → List (Nat × Nat)
  | [] => []
  | p :: ps =>
    if p.2 ∉ U ∧ p.2 = c then p :: pendingFor U c ps else pendingFor U c ps

/-- The pairs the remote loop still dispatches for, given the
already-updated set U: those whose core is not yet covered (in order). -/
def remotePending (U : Finset Nat) : List (Nat × Nat) → List (Nat × Nat)
  | [] => []
  | p :: ps =>
    if p.2 ∉ U then p :: remotePending U ps else remotePending U ps

/-! ## Lemmas about the feature squash -/

lemma mismatch_cpbm_wd (dev cls : MpamDevice) :
    (__device_class_feature_mismatch dev cls).cpbm_wd = cls.cpbm_wd := by
  simp only [__device_class_feature_mismatch]

lemma mismatch_mbw_pbm_bits (dev cls : MpamDevice) :
    (__device_class_feature_mismatch dev cls).mbw_pbm_bits = cls.mbw_pbm_bits := by
  simp only [__device_class_feature_mismatch]

lemma mismatch_num_csu_mon (dev cls : MpamDevice) :
    (__device_class_feature_mismatch dev cls).num_csu_mon =
      min cls.num_csu_mon dev.num_csu_mon := by
  simp only [__device_class_feature_mismatch]
  split_ifs with h <;> omega

lemma mismatch_num_mbwu_mon (dev cls : MpamDevice) :
    (__device_class_feature_mismatch dev cls).num_mbwu_mon =
      min cls.num_mbwu_mon dev.num_mbwu_mon := by
  simp only [__device_class_feature_mismatch]
  split_ifs with h <;> omega

lemma mismatch_bwa_wd (dev cls : MpamDevice) :
    (__device_class_feature_mismatch dev cls).bwa_wd =
      min cls.bwa_wd dev.bwa_wd := by
  simp only [__device_class_feature_mismatch]
  split_ifs with h <;> omega

lemma mismatch_intpri_wd (dev cls : MpamDevice) :
    (__device_class_feature_mismatch dev cls).intpri_wd =
      min cls.intpri_wd dev.intpri_wd := by
  simp only [__device_class_feature_mismatch]
  split_ifs with h <;> omega

lemma mismatch_dspri_wd (dev cls : MpamDevice) :
    (__device_class_feature_mismatch dev cls).dspri_wd =
      min cls.dspri_wd dev.dspri_wd := by
  simp only [__device_class_feature_mismatch]
  split_ifs with h <;> omega

lemma mismatch_features_subset (dev cls : MpamDevice) :
    (__device_class_feature_mismatch dev cls).features ⊆ cls.features := by
  simp only [__device_class_feature_mismatch]
  split_ifs <;> intro x hx <;> first
    | exact hx
    | (simp only [Finset.mem_erase] at hx; tauto)

lemma mismatch_mem_cpor (dev cls : MpamDevice) :
    mpam_feat_cpor_part ∈ (__device_class_feature_mismatch dev cls).features ↔
      (mpam_feat_cpor_part ∈ cls.features ∧ cls.cpbm_wd = dev.cpbm_wd) := by
  simp only [__device_class_feature_mismatch]
  split_ifs <;> simp_all [Finset.mem_erase]

lemma mismatch_mem_mbw (dev cls : MpamDevice) :
    mpam_feat_mbw_part ∈ (__device_class_feature_mismatch dev cls).features ↔
      (mpam_feat_mbw_part ∈ cls.features ∧
        cls.mbw_pbm_bits = dev.mbw_pbm_bits) := by
  simp only [__device_class_feature_mismatch]
  split_ifs <;> simp_all [Finset.mem_erase]

lemma squashStep_cpbm_wd (cls dev : MpamDevice) :
    (squashStep cls dev).cpbm_wd = cls.cpbm_wd := by
  simp [squashStep, mismatch_cpbm_wd]

lemma squashStep_mbw_pbm_bits (cls dev : MpamDevice) :
    (squashStep cls dev).mbw_pbm_bits = cls.mbw_pbm_bits := by
  simp [squashStep, mismatch_mbw_pbm_bits]

lemma squashStep_num_csu_mon (cls dev : MpamDevice) :
    (squashStep cls dev).num_csu_mon = min cls.num_csu_mon dev.num_csu_mon := by
  simp [squashStep, mismatch_num_csu_mon]

lemma squashStep_num_mbwu_mon (cls dev : MpamDevice) :
    (squashStep cls dev).num_mbwu_mon =
      min cls.num_mbwu_mon dev.num_mbwu_mon := by
  simp [squashStep, mismatch_num_mbwu_mon]

lemma squashStep_bwa_wd (cls dev : MpamDevice) :
    (squashStep cls dev).bwa_wd = min cls.bwa_wd dev.bwa_wd := by
  simp [squashStep, mismatch_bwa_wd]

lemma squashStep_intpri_wd (cls dev : MpamDevice) :
    (squashStep cls dev).intpri_wd = min cls.intpri_wd dev.intpri_wd := by
  simp [squashStep, mismatch_intpri_wd]

lemma squashStep_dspri_wd (cls dev : MpamDevice) :
    (squashStep cls dev).dspri_wd = min cls.dspri_wd dev.dspri_wd := by
  simp [squashStep, mismatch_dspri_wd]

lemma squashStep_features_subset_cls (cls dev : MpamDevice) :
    (squashStep cls dev).features ⊆ cls.features := by
  simp only [squashStep]
  exact fun x hx =>
    mismatch_features_subset dev cls (Finset.mem_inter.mp hx).1

lemma squashStep_features_subset_dev (cls dev : MpamDevice) :
    (squashStep cls dev).features ⊆ dev.features := by
  simp only [squashStep]
  exact fun x hx => (Finset.mem_inter.mp hx).2

lemma squashStep_mem_cpor (cls dev : MpamDevice) :
    mpam_feat_cpor_part ∈ (squashStep cls dev).features ↔
      (mpam_feat_cpor_part ∈ cls.features ∧ cls.cpbm_wd = dev.cpbm_wd ∧
        mpam_feat_cpor_part ∈ dev.features) := by
  simp only [squashStep, Finset.mem_inter, mismatch_mem_cpor]
  tauto

lemma squashStep_mem_mbw (cls dev : MpamDevice) :
    mpam_feat_mbw_part ∈ (squashStep cls dev).features ↔
      (mpam_feat_mbw_part ∈ cls.features ∧
        cls.mbw_pbm_bits = dev.mbw_pbm_bits ∧
        mpam_feat_mbw_part ∈ dev.features) := by
  simp only [squashStep, Finset.mem_inter, mismatch_mem_mbw]
  tauto

lemma squash_foldl_cpbm_wd (devs : List MpamDevice) (cls : MpamDevice) :
    (devs.foldl squashStep cls).cpbm_wd = cls.cpbm_wd := by
  induction devs generalizing cls with
  | nil => rfl
  | cons d l ih => simp [List.foldl_cons, ih, squashStep_cpbm_wd]

lemma squash_foldl_mbw_pbm_bits (devs : List MpamDevice) (cls : MpamDevice) :
    (devs.foldl squashStep cls).mbw_pbm_bits = cls.mbw_pbm_bits := by
  induction devs generalizing cls with
  | nil => rfl
  | cons d l ih => simp [List.foldl_cons, ih, squashStep_mbw_pbm_bits]

lemma squash_foldl_mem_cpor (devs : List MpamDevice) (cls : MpamDevice) :
    mpam_feat_cpor_part ∈ (devs.foldl squashStep cls).features ↔
      (mpam_feat_cpor_part ∈ cls.features ∧
        ∀ d ∈ devs, cls.cpbm_wd = d.cpbm_wd ∧
          mpam_feat_cpor_part ∈ d.features) := by
  induction devs generalizing cls with
  | nil => simp
  | cons d l ih =>
    simp only [List.foldl_cons, ih, squashStep_mem_cpor, squashStep_cpbm_wd,
      List.mem_cons, forall_eq_or_imp]
    tauto

lemma squash_foldl_mem_mbw (devs : List MpamDevice) (cls : MpamDevice) :
    mpam_feat_mbw_part ∈ (devs.foldl squashStep cls).features ↔
      (mpam_feat_mbw_part ∈ cls.features ∧
        ∀ d ∈ devs, cls.mbw_pbm_bits = d.mbw_pbm_bits ∧
          mpam_feat_mbw_part ∈ d.features) := by
  induction devs generalizing cls with
  | nil => simp
  | cons d l ih =>
    simp only [List.foldl_cons, ih, squashStep_mem_mbw,
      squashStep_mbw_pbm_bits, List.mem_cons, forall_eq_or_imp]
    tauto

lemma squash_foldl_features_subset (devs : List MpamDevice)
    (cls : MpamDevice) :
    (devs.foldl squashStep cls).features ⊆ cls.features := by
  induction devs generalizing cls with
  | nil => exact fun x hx => hx
  | cons d l ih =>
    exact fun x hx =>
      squashStep_features_subset_cls cls d (ih (squashStep cls d) hx)

lemma squash_foldl_features_subset_mem (devs : List MpamDevice)
    (cls : MpamDevice) :
    ∀ d ∈ devs, (devs.foldl squashStep cls).features ⊆ d.features := by
  induction devs generalizing cls with
  | nil => intro d hd; cases hd
  | cons a l ih =>
    intro d hd
    rcases List.mem_cons.mp hd with h | h
    · subst h
      exact fun x hx =>
        squashStep_features_subset_dev cls d
          (squash_foldl_features_subset l (squashStep cls d) hx)
    · exact ih (squashStep cls a) d h

lemma list_foldl_min_le_init (l : List Nat) (a : Nat) :
    l.foldl min a ≤ a := by
  induction l generalizing a with
  | nil => exact le_refl a
  | cons x l ih =>
    simp only [List.foldl_cons]
    exact le_trans (ih (min a x)) (min_le_left a x)

lemma list_foldl_min_le_mem (l : List Nat) (a : Nat) :
    ∀ x ∈ l, l.foldl min a ≤ x := by
  induction l generalizing a with
  | nil => intro x hx; cases hx
  | cons y l ih =>
    intro x hx
    rcases List.mem_cons.mp hx with h | h
    · subst h
      exact le_trans (list_foldl_min_le_init l (min a x)) (min_le_right a x)
    · exact ih (min a y) x h

lemma list_foldl_min_mem (l : List Nat) (a : Nat) :
    l.foldl min a = a ∨ l.foldl min a ∈ l := by
  induction l generalizing a with
  | nil => exact Or.inl rfl
  | cons x l ih =>
    simp only [List.foldl_cons]
    rcases ih (min a x) with h | h
    · rcases Nat.le_total a x with hax | hxa
      · left; rw [h, min_eq_left hax]
      · right; rw [h, min_eq_right hxa]; exact List.mem_cons_self x l
    · right; exact List.mem_cons_of_mem x h

lemma squash_foldl_num_csu (devs : List MpamDevice) (cls : MpamDevice) :
    (devs.foldl squashStep cls).num_csu_mon =
      (devs.map (fun d => d.num_csu_mon)).foldl min cls.num_csu_mon := by
  induction devs generalizing cls with
  | nil => rfl
  | cons d l ih => simp [List.foldl_cons, ih, squashStep_num_csu_mon]

lemma squash_foldl_num_mbwu (devs : List MpamDevice) (cls : MpamDevice) :
    (devs.foldl squashStep cls).num_mbwu_mon =
      (devs.map (fun d => d.num_mbwu_mon)).foldl min cls.num_mbwu_mon := by
  induction devs generalizing cls with
  | nil => rfl
  | cons d l ih => simp [List.foldl_cons, ih, squashStep_num_mbwu_mon]

lemma squash_foldl_bwa (devs : List MpamDevice) (cls : MpamDevice) :
    (devs.foldl squashStep cls).bwa_wd =
      (devs.map (fun d => d.bwa_wd)).foldl min cls.bwa_wd := by
  induction devs generalizing cls with
  | nil => rfl
  | cons d l ih => simp [List.foldl_cons, ih, squashStep_bwa_wd]

lemma squash_foldl_intpri (devs : List MpamDevice) (cls : MpamDevice) :
    (devs.foldl squashStep cls).intpri_wd =
      (devs.map (fun d => d.intpri_wd)).foldl min cls.intpri_wd := by
  induction devs generalizing cls with
  | nil => rfl
  | cons d l ih => simp [List.foldl_cons, ih, squashStep_intpri_wd]

lemma squash_foldl_dspri (devs : List MpamDevice) (cls : MpamDevice) :
    (devs.foldl squashStep cls).dspri_wd =
      (devs.map (fun d => d.dspri_wd)).foldl min cls.dspri_wd := by
  induction devs generalizing cls with
  | nil => rfl
  | cons d l ih => simp [List.foldl_cons, ih, squashStep_dspri_wd]

lemma foldl_min_is_min (l : List Nat) (a : Nat) (h : a ∈ l) :
    l.foldl min a ∈ l ∧ ∀ x ∈ l, l.foldl min a ≤ x := by
  refine ⟨?_, list_foldl_min_le_mem l a⟩
  rcases list_foldl_min_mem l a with h0 | h0
  · rw [h0]; exact h
  · exact h0

/-- Claim C1: for a class reconciled by the feature squash whose devices all
report a bitmap-width feature (cache-portion partitioning, bandwidth-portion
partitioning) as present, that feature is present in the class-level record
iff every device of the class reports the same bitmap width; any width
disagreement makes the feature absent at class scope rather than narrowed. -/
theorem claim_C1_bitmap_width_squash (cls0 d0 : MpamDevice)
    (t : List MpamDevice) (ts : List (List MpamDevice)) :
    ((∀ d ∈ ((d0 :: t) :: ts).flatten, mpam_feat_cpor_part ∈ d.features) →
      (mpam_feat_cpor_part ∈
          (mpam_enable_squash_features ((d0 :: t) :: ts) cls0).features ↔
        ∀ d ∈ ((d0 :: t) :: ts).flatten, d.cpbm_wd = d0.cpbm_wd)) ∧
    ((∀ d ∈ ((d0 :: t) :: ts).flatten, mpam_feat_mbw_part ∈ d.features) →
      (mpam_feat_mbw_part ∈
          (mpam_enable_squash_features ((d0 :: t) :: ts) cls0).features ↔
        ∀ d ∈ ((d0 :: t) :: ts).flatten,
          d.mbw_pbm_bits = d0.mbw_pbm_bits)) := by
  have hsq : mpam_enable_squash_features ((d0 :: t) :: ts) cls0 =
      (((d0 :: t) :: ts).flatten).foldl squashStep (squashSeed cls0 d0) := rfl
  have hd0 : d0 ∈ ((d0 :: t) :: ts).flatten := by simp
  constructor
  · intro hall
    rw [hsq, squash_foldl_mem_cpor]
    have hseedf : (squashSeed cls0 d0).features = d0.features := rfl
    have hseedw : (squashSeed cls0 d0).cpbm_wd = d0.cpbm_wd := rfl
    rw [hseedf, hseedw]
    constructor
    · rintro ⟨-, h⟩ d hd
      exact ((h d hd).1).symm
    · intro h
      exact ⟨hall d0 hd0, fun d hd => ⟨(h d hd).symm, hall d hd⟩⟩
  · intro hall
    rw [hsq, squash_foldl_mem_mbw]
    have hseedf : (squashSeed cls0 d0).features = d0.features := rfl
    have hseedw : (squashSeed cls0 d0).mbw_pbm_bits = d0.mbw_pbm_bits := rfl
    rw [hseedf, hseedw]
    constructor
    · rintro ⟨-, h⟩ d hd
      exact ((h d hd).1).symm
    · intro h
      exact ⟨hall d0 hd0, fun d hd => ⟨(h d hd).symm, hall d hd⟩⟩

/-- Witness for claim C1: a cache class with two devices of cache-portion
widths 13 and 17 loses the cache-portion feature at class scope. -/
theorem claim_C1_witness :
    (∀ d ∈ ([[exDevW13], [exDevW17]] : List (List MpamDevice)).flatten,
        mpam_feat_cpor_part ∈ d.features) ∧
    (mpam_feat_cpor_part ∈
        (mpam_enable_squash_features [[exDevW13], [exDevW17]]
          mpam_device_initial).features ↔
      ∀ d ∈ ([[exDevW13], [exDevW17]] : List (List MpamDevice)).flatten,
        d.cpbm_wd = exDevW13.cpbm_wd) :=
  ⟨by decide,
   (claim_C1_bitmap_width_squash mpam_device_initial exDevW13 []
      [[exDevW17]]).1 (by decide)⟩

/-- Claim C2: after the squash, each numeric field of the class record is
the minimum of that field over all devices of the class, and the class
feature set is contained in every device feature set. -/
theorem claim_C2_numeric_min_and_subset (cls0 d0 : MpamDevice)
    (t : List MpamDevice) (ts : List (List MpamDevice)) :
    ((mpam_enable_squash_features ((d0 :: t) :: ts) cls0).num_csu_mon ∈
        (((d0 :: t) :: ts).flatten).map (fun d => d.num_csu_mon) ∧
      ∀ d ∈ ((d0 :: t) :: ts).flatten,
        (mpam_enable_squash_features ((d0 :: t) :: ts) cls0).num_csu_mon ≤
          d.num_csu_mon) ∧
    ((mpam_enable_squash_features ((d0 :: t) :: ts) cls0).num_mbwu_mon ∈
        (((d0 :: t) :: ts).flatten).map (fun d => d.num_mbwu_mon) ∧
      ∀ d ∈ ((d0 :: t) :: ts).flatten,
        (mpam_enable_squash_features ((d0 :: t) :: ts) cls0).num_mbwu_mon ≤
          d.num_mbwu_mon) ∧
    ((mpam_enable_squash_features ((d0 :: t) :: ts) cls0).bwa_wd ∈
        (((d0 :: t) :: ts).flatten).map (fun d => d.bwa_wd) ∧
      ∀ d ∈ ((d0 :: t) :: ts).flatten,
        (mpam_enable_squash_features ((d0 :: t) :: ts) cls0).bwa_wd ≤
          d.bwa_wd) ∧
    ((mpam_enable_squash_features ((d0 :: t) :: ts) cls0).intpri_wd ∈
        (((d0 :: t) :: ts).flatten).map (fun d => d.intpri_wd) ∧
      ∀ d ∈ ((d0 :: t) :: ts).flatten,
        (mpam_enable_squash_features ((d0 :: t) :: ts) cls0).intpri_wd ≤
          d.intpri_wd) ∧
    ((mpam_enable_squash_features ((d0 :: t) :: ts) cls0).dspri_wd ∈
        (((d0 :: t) :: ts).flatten).map (fun d => d.dspri_wd) ∧
      ∀ d ∈ ((d0 :: t) :: ts).flatten,
        (mpam_enable_squash_features ((d0 :: t) :: ts) cls0).dspri_wd ≤
          d.dspri_wd) ∧
    (∀ d ∈ ((d0 :: t) :: ts).flatten,
      (mpam_enable_squash_features ((d0 :: t) :: ts) cls0).features ⊆
        d.features) := by
  have hsq : mpam_enable_squash_features ((d0 :: t) :: ts) cls0 =
      (((d0 :: t) :: ts).flatten).foldl squashStep (squashSeed cls0 d0) := rfl
  have hd0 : d0 ∈ ((d0 :: t) :: ts).flatten := by simp
  refine ⟨?_, ?_, ?_, ?_, ?_, ?_⟩
  · rw [hsq, squash_foldl_num_csu]
    have hseed : (squashSeed cls0 d0).num_csu_mon = d0.num_csu_mon := rfl
    rw [hseed]
    have hmem := List.mem_map_of_mem (fun d => d.num_csu_mon) hd0
    obtain ⟨h1, h2⟩ := foldl_min_is_min _ _ hmem
    exact ⟨h1, fun d hd =>
      h2 _ (List.mem_map_of_mem (fun d => d.num_csu_mon) hd)⟩
  · rw [hsq, squash_foldl_num_mbwu]
    have hseed : (squashSeed cls0 d0).num_mbwu_mon = d0.num_mbwu_mon := rfl
    rw [hseed]
    have hmem := List.mem_map_of_mem (fun d => d.num_mbwu_mon) hd0
    obtain ⟨h1, h2⟩ := foldl_min_is_min _ _ hmem
    exact ⟨h1, fun d hd =>
      h2 _ (List.mem_map_of_mem (fun d => d.num_mbwu_mon) hd)⟩
  · rw [hsq, squash_foldl_bwa]
    have hseed : (squashSeed cls0 d0).bwa_wd = d0.bwa_wd := rfl
    rw [hseed]
    have hmem := List.mem_map_of_mem (fun d => d.bwa_wd) hd0
    obtain ⟨h1, h2⟩ := foldl_min_is_min _ _ hmem
    exact ⟨h1, fun d hd =>
      h2 _ (List.mem_map_of_mem (fun d => d.bwa_wd) hd)⟩
  · rw [hsq, squash_foldl_intpri]
    have hseed : (squashSeed cls0 d0).intpri_wd = d0.intpri_wd := rfl
    rw [hseed]
    have hmem := List.mem_map_of_mem (fun d => d.intpri_wd) hd0
    obtain ⟨h1, h2⟩ := foldl_min_is_min _ _ hmem
    exact ⟨h1, fun d hd =>
      h2 _ (List.mem_map_of_mem (fun d => d.intpri_wd) hd)⟩
  · rw [hsq, squash_foldl_dspri]
    have hseed : (squashSeed cls0 d0).dspri_wd = d0.dspri_wd := rfl
    rw [hseed]
    have hmem := List.mem_map_of_mem (fun d => d.dspri_wd) hd0
    obtain ⟨h1, h2⟩ := foldl_min_is_min _ _ hmem
    exact ⟨h1, fun d hd =>
      h2 _ (List.mem_map_of_mem (fun d => d.dspri_wd) hd)⟩
  · rw [hsq]
    exact squash_foldl_features_subset_mem _ _

/-! ## Claims about __apply_config and reset apply -/

/-- Claim C6: applying a feature the device does not support returns
-EOPNOTSUPP; applying a (supported-feature) configuration with no value
returns -EINVAL; in both cases no register is written (empty trace). -/
theorem claim_C6_apply_config_errors (dev : MpamDevice)
    (arg : mpam_component_cfg_update) :
    (arg.feat ∉ dev.features →
      __apply_config dev arg = (-EOPNOTSUPP, [])) ∧
    (arg.feat ∈ dev.features → arg.mpam_cfg = 0 →
      __apply_config dev arg = (-EINVAL, [])) := by
  constructor
  · intro h
    simp [__apply_config, h]
  · intro h h0
    simp [__apply_config, h, h0]

/-- Witness for claim C6: a bandwidth-maximum configuration against a
device lacking that feature, and an empty-value configuration against a
supported feature. -/
theorem claim_C6_witness :
    (mpam_feat_mbw_max ∉ exDevW13.features ∧
      __apply_config exDevW13 ⟨mpam_feat_mbw_max, 3, 5⟩ =
        (-EOPNOTSUPP, [])) ∧
    (mpam_feat_cpor_part ∈ exDevW13.features ∧
      __apply_config exDevW13 ⟨mpam_feat_cpor_part, 3, 0⟩ =
        (-EINVAL, [])) :=
  ⟨⟨by decide,
    (claim_C6_apply_config_errors exDevW13 ⟨mpam_feat_mbw_max, 3, 5⟩).1
      (by decide)⟩,
   ⟨by decide,
    (claim_C6_apply_config_errors exDevW13 ⟨mpam_feat_cpor_part, 3, 0⟩).2
      (by decide) (by decide)⟩⟩

/-! ## Zero-error runs of the broadcaster -/

lemma local_foldl_first_error_eq (applyRes : Nat → Int) (cpu : Nat)
    (h : ∀ i, applyRes i = 0) (devs : List BDevice) (st : ApplyState) :
    (devs.foldl (apply_all_local_step applyRes cpu) st).first_error =
      st.first_error := by
  induction devs generalizing st with
  | nil => rfl
  | cons d l ih =>
    rw [List.foldl_cons, ih]
    simp only [apply_all_local_step, record_first_error, h d.devid]
    split_ifs <;> simp_all

lemma local_first_error_eq (applyRes : Nat → Int) (cpu : Nat)
    (h : ∀ i, applyRes i = 0) (devs : List BDevice) (st : ApplyState) :
    (mpam_component_apply_all_local applyRes cpu devs st).first_error =
      st.first_error := by
  simp only [mpam_component_apply_all_local]
  exact local_foldl_first_error_eq applyRes cpu h devs st

lemma remote_first_error_eq (applyRes : Nat → Int)
    (h : ∀ i, applyRes i = 0) (allDevs : List BDevice)
    (devs : List BDevice) (st : ApplyState) :
    (mpam_component_apply_all_remote applyRes allDevs devs st).first_error =
      st.first_error := by
  induction devs generalizing st with
  | nil => rfl
  | cons d l ih =>
    rw [mpam_component_apply_all_remote]
    split_ifs with h1 h2
    · rfl
    · exact ih st
    · rw [ih, local_first_error_eq applyRes _ h]

lemma apply_all_first_error_zero (applyRes : Nat → Int)
    (h : ∀ i, applyRes i = 0) (fw : Finset Nat) (devs : List BDevice)
    (initCpu : Nat) :
    (mpam_component_apply_all applyRes fw devs initCpu).first_error = 0 := by
  simp only [mpam_component_apply_all]
  rw [remote_first_error_eq applyRes h]
  split_ifs with h1
  · rw [local_first_error_eq applyRes _ h]
  · rfl

/-- Claim C10: a reset (cfg = none) through mpam_device_apply_config always
returns 0, for every device and every policy-layer converted configuration,
even when reapplying a converted configuration inside the reset fails; and
therefore a broadcast whose per-device applies are all resets records no
first error. -/
theorem claim_C10_reset_apply_returns_zero :
    (∀ (dev : MpamDevice) (max_partid : Nat)
        (getcfg : Nat → Option mpam_component_cfg_update),
      (mpam_device_apply_config dev none max_partid getcfg).1 = 0) ∧
    (∀ (devOf : Nat → MpamDevice) (max_partid : Nat)
        (getcfg : Nat → Option mpam_component_cfg_update)
        (fw : Finset Nat) (devs : List BDevice) (initCpu : Nat),
      (mpam_component_apply_all
          (fun i =>
            (mpam_device_apply_config (devOf i) none max_partid getcfg).1)
          fw devs initCpu).first_error = 0) := by
  refine ⟨fun dev mp g => rfl, fun devOf mp g fw devs c => ?_⟩
  exact apply_all_first_error_zero _ (fun i => rfl) fw devs c

/-! ## Claim about the error interrupt handler -/

/-- Claim C8 (code bug): at error code 8 (= _MPAM_NUM_ERRCODE, not one of
the seven known codes 1..7) the handler takes the log-by-name branch and
indexes the error-string table at 8, one entry past its end. -/
theorem claim_C8_errcode_table_oob :
    mpam_handle_error_irq (8 <<< 24) =
      (IrqResult.irq_handled, some (LogEvent.byName 8),
       [RegEvent.write MPAMF_ESR 0]) ∧
    mpam_msc_err_str.length = 8 ∧
    mpam_msc_err_str.get? 8 = none := by
  refine ⟨by decide, by decide, by decide⟩

/-! ## Claims about probing -/

/-- Claim C9: mpam_device_probe returns -EIO whenever the architecture
identification register is not the expected version, leaving the device
(features, probed flag) and the system-wide summary untouched; and a device
that has never been successfully probed has an empty feature set and is not
marked probed. -/
theorem claim_C9_probe_arch_mismatch :
    (∀ (dev : MpamDevice) (hw : Nat → Nat) (sys : MpamSysprops),
      hw MPAMF_AIDR ≠ MPAM_ARCHITECTURE_V1 →
      mpam_device_probe dev hw sys = (-EIO_errno, dev, sys)) ∧
    (∀ (sys : MpamSysprops) (hws : List (Nat → Nat)),
      (∀ hw ∈ hws, hw MPAMF_AIDR ≠ MPAM_ARCHITECTURE_V1) →
      (mpam_probe_seq mpam_device_initial sys hws).1.features = ∅ ∧
      (mpam_probe_seq mpam_device_initial sys hws).1.probed = false) := by
  have ha : ∀ (dev : MpamDevice) (hw : Nat → Nat) (sys : MpamSysprops),
      hw MPAMF_AIDR ≠ MPAM_ARCHITECTURE_V1 →
      mpam_device_probe dev hw sys = (-EIO_errno, dev, sys) := by
    intro dev hw sys h
    simp [mpam_device_probe, h]
  have hseq : ∀ (hws : List (Nat → Nat)) (dev : MpamDevice)
      (sys : MpamSysprops),
      (∀ hw ∈ hws, hw MPAMF_AIDR ≠ MPAM_ARCHITECTURE_V1) →
      mpam_probe_seq dev sys hws = (dev, sys) := by
    intro hws
    induction hws with
    | nil => intro dev sys h; rfl
    | cons hw l ih =>
      intro dev sys h
      rw [mpam_probe_seq, ha dev hw sys (h hw (List.mem_cons_self hw l))]
      exact ih dev sys fun g hg => h g (List.mem_cons_of_mem hw hg)
  refine ⟨ha, fun sys hws h => ?_⟩
  rw [hseq hws mpam_device_initial sys h]
  exact ⟨rfl, rfl⟩

/-- Witness for claim C9: hardware answering 0 on every register fails the
architecture check and leaves the freshly allocated device untouched. -/
theorem claim_C9_witness :
    ((fun _ : Nat => 0) MPAMF_AIDR ≠ MPAM_ARCHITECTURE_V1) ∧
    mpam_device_probe mpam_device_initial (fun _ => 0) ⟨100, 10⟩ =
      (-EIO_errno, mpam_device_initial, ⟨100, 10⟩) ∧
    (mpam_probe_seq mpam_device_initial ⟨100, 10⟩
        [fun _ => 0]).1.features = ∅ :=
  ⟨by decide,
   claim_C9_probe_arch_mismatch.1 mpam_device_initial (fun _ => 0) ⟨100, 10⟩
     (by decide),
   (claim_C9_probe_arch_mismatch.2 ⟨100, 10⟩ [fun _ => 0]
     (by intro hw hhw; rw [List.mem_singleton] at hhw; subst hhw; decide)).1⟩

/-! ## Fail-fast behaviour of the broadcaster -/

lemma filter_ne_headD_zero (l : List Int) :
    (l.filter (fun e => e ≠ 0)).headD 0 = 0 ↔
      l.filter (fun e => e ≠ 0) = [] := by
  cases hf : l.filter (fun e => e ≠ 0) with
  | nil => simp
  | cons a t =>
    have ha : a ∈ l.filter (fun e => e ≠ 0) := by
      rw [hf]; exact List.mem_cons_self a t
    have h2 := (List.mem_filter.mp ha).2
    simp only [decide_eq_true_eq] at h2
    simp only [List.headD_cons]
    constructor
    · intro h; exact absurd h h2
    · intro h; cases h

lemma first_error_of_append (applyRes : Nat → Int) (l : List Nat) (i : Nat) :
    first_error_of applyRes (l ++ [i]) =
      if first_error_of applyRes l = 0 then
        (if applyRes i ≠ 0 then applyRes i else 0)
      else first_error_of applyRes l := by
  simp only [first_error_of, List.map_append, List.map_cons, List.map_nil,
    List.filter_append]
  by_cases hA : ((l.map applyRes).filter (fun e => e ≠ 0)) = []
  · rw [hA]
    by_cases he : applyRes i ≠ 0 <;> simp [he]
  · have h0 : ¬ (((l.map applyRes).filter (fun e => e ≠ 0)).headD 0 = 0) := by
      intro h
      exact hA ((filter_ne_headD_zero (l.map applyRes)).mp h)
    rw [if_neg h0]
    cases hf : (l.map applyRes).filter (fun e => e ≠ 0) with
    | nil => exact absurd hf hA
    | cons a t => simp

lemma local_step_first_error_inv (applyRes : Nat → Int) (cpu : Nat)
    (st : ApplyState) (dev : BDevice)
    (h : st.first_error = first_error_of applyRes st.attempts) :
    (apply_all_local_step applyRes cpu st dev).first_error =
      first_error_of applyRes
        (apply_all_local_step applyRes cpu st dev).attempts := by
  simp only [apply_all_local_step]
  by_cases h1 : dev.online_affinity ∩ st.updated_on ≠ ∅
  · rw [if_pos h1]; exact h
  rw [if_neg h1]
  by_cases h2 : cpu ∉ dev.online_affinity
  · rw [if_pos h2]; exact h
  rw [if_neg h2]
  simp only [record_first_error]
  split_ifs with he hz <;>
    simp only [first_error_of_append] <;> split_ifs with p <;> omega

lemma local_foldl_first_error_inv (applyRes : Nat → Int) (cpu : Nat)
    (devs : List BDevice) (st : ApplyState)
    (h : st.first_error = first_error_of applyRes st.attempts) :
    (devs.foldl (apply_all_local_step applyRes cpu) st).first_error =
      first_error_of applyRes
        (devs.foldl (apply_all_local_step applyRes cpu) st).attempts := by
  induction devs generalizing st with
  | nil => exact h
  | cons d l ih =>
    rw [List.foldl_cons]
    exact ih _ (local_step_first_error_inv applyRes cpu st d h)

lemma local_first_error_inv (applyRes : Nat → Int) (cpu : Nat)
    (devs : List BDevice) (st : ApplyState)
    (h : st.first_error = first_error_of applyRes st.attempts) :
    (mpam_component_apply_all_local applyRes cpu devs st).first_error =
      first_error_of applyRes
        (mpam_component_apply_all_local applyRes cpu devs st).attempts := by
  simp only [mpam_component_apply_all_local]
  exact local_foldl_first_error_inv applyRes cpu devs st h

lemma remote_first_error_inv (applyRes : Nat → Int) (allDevs : List BDevice)
    (devs : List BDevice) (st : ApplyState)
    (h : st.first_error = first_error_of applyRes st.attempts) :
    (mpam_component_apply_all_remote applyRes allDevs devs st).first_error =
      first_error_of applyRes
        (mpam_component_apply_all_remote applyRes allDevs devs
          st).attempts := by
  induction devs generalizing st with
  | nil => exact h
  | cons d l ih =>
    rw [mpam_component_apply_all_remote]
    split_ifs with h1 h2
    · exact h
    · exact ih st h
    · exact ih _ (local_first_error_inv applyRes _ allDevs _ h)

/-- Claim C4, counterexample: with two devices reachable from the calling
core and the first apply failing (-5), the second device is still attempted
in the same local pass (attempts = [0, 1], not [0]); the recorded first
error -5 is returned. The claim says no further device is attempted once a
first error is recorded. -/
theorem claim_C4_counterexample :
    (mpam_component_apply_all (fun i => if i = 0 then -5 else 0) {0}
        [⟨0, {0}⟩, ⟨1, {0}⟩] 0).attempts = [0, 1] ∧
    ¬ ((mpam_component_apply_all (fun i => if i = 0 then -5 else 0) {0}
        [⟨0, {0}⟩, ⟨1, {0}⟩] 0).attempts = [0]) ∧
    (fun i : Nat => if i = 0 then (-5 : Int) else 0) 0 ≠ 0 ∧
    (mpam_component_apply_all (fun i => if i = 0 then -5 else 0) {0}
        [⟨0, {0}⟩, ⟨1, {0}⟩] 0).first_error = -5 := by
  refine ⟨by decide, by decide, by decide, by decide⟩

/-- Claim C4 as amended: once a first error has been recorded, no further
remote invocation is issued (the remote loop stops immediately; devices of
an already in-progress local pass may still be attempted), and the value
returned by mpam_component_apply_all is the first non-zero apply result in
attempt order. -/
theorem claim_C4_first_error_fail_fast :
    (∀ (applyRes : Nat → Int) (allDevs devs : List BDevice)
        (st : ApplyState), st.first_error ≠ 0 →
      mpam_component_apply_all_remote applyRes allDevs devs st = st) ∧
    (∀ (applyRes : Nat → Int) (fw : Finset Nat) (devs : List BDevice)
        (initCpu : Nat),
      (mpam_component_apply_all applyRes fw devs initCpu).first_error =
        first_error_of applyRes
          (mpam_component_apply_all applyRes fw devs initCpu).attempts) := by
  constructor
  · intro applyRes allDevs devs st h
    cases devs with
    | nil => rfl
    | cons d l =>
      rw [mpam_component_apply_all_remote, if_pos h]
  · intro applyRes fw devs initCpu
    simp only [mpam_component_apply_all]
    apply remote_first_error_inv
    split_ifs with h1
    · exact local_first_error_inv applyRes initCpu devs _ rfl
    · rfl

/-- Witness for claim C4 as amended: a remote phase entered with a recorded
error performs nothing, and a concrete call returns its first non-zero
apply result. -/
theorem claim_C4_witness :
    ((⟨{0}, -7, [5], []⟩ : ApplyState).first_error ≠ 0 ∧
      mpam_component_apply_all_remote (fun _ => 0) [⟨1, {1}⟩] [⟨1, {1}⟩]
        ⟨{0}, -7, [5], []⟩ = ⟨{0}, -7, [5], []⟩) ∧
    (mpam_component_apply_all (fun i => if i = 0 then -5 else 0) {0}
        [⟨0, {0}⟩, ⟨1, {0}⟩] 0).first_error =
      first_error_of (fun i => if i = 0 then -5 else 0)
        (mpam_component_apply_all (fun i => if i = 0 then -5 else 0) {0}
          [⟨0, {0}⟩, ⟨1, {0}⟩] 0).attempts :=
  ⟨⟨by decide,
    claim_C4_first_error_fail_fast.1 (fun _ => 0) [⟨1, {1}⟩] [⟨1, {1}⟩]
      ⟨{0}, -7, [5], []⟩ (by decide)⟩,
   claim_C4_first_error_fail_fast.2 (fun i => if i = 0 then -5 else 0) {0}
     [⟨0, {0}⟩, ⟨1, {0}⟩] 0⟩

/-! ## Device creation and the ioremap failure path -/

lemma updateFirst_mem_of_find? {α : Type} (p : α → Bool) (f : α → α)
    (l : List α) (a : α) (h : l.find? p = some a) :
    f a ∈ updateFirst p f l := by
  induction l with
  | nil => cases h
  | cons b t ih =>
    by_cases hb : p b
    · rw [List.find?_cons_of_pos _ hb] at h
      injection h with h
      subst h
      simp only [updateFirst, if_pos hb]
      exact List.mem_cons_self _ _
    · rw [List.find?_cons_of_neg _ hb] at h
      simp only [updateFirst, if_neg hb]
      exact List.mem_cons_of_mem b (ih h)

lemma mpam_class_get_ok (st : MpamTopology) (level_idx : Nat)
    (ty : MpamClassType) :
    ∃ c st1, mpam_class_get st level_idx ty true = (.ok c, st1) ∧
      st1.all_devices = st.all_devices ∧
      st1.classes.find? (classMatches level_idx ty) = some c := by
  cases hf : st.classes.find? (classMatches level_idx ty) with
  | some c =>
    refine ⟨c, st, ?_, rfl, hf⟩
    simp [mpam_class_get, hf]
  | none =>
    refine ⟨⟨level_idx, ty, []⟩, { st with classes := ⟨level_idx, ty, []⟩ :: st.classes }, ?_, rfl, ?_⟩
    · simp [mpam_class_get, hf]
    · have hp : classMatches level_idx ty ⟨level_idx, ty, []⟩ = true := by
        simp [classMatches]
      simp [List.find?_cons_of_pos _ hp]

lemma mpam_component_get_ok (c : CClass) (component_id : Int) :
    ∃ comp c2, mpam_component_get c component_id true = (.ok comp, c2) ∧
      c2.components.find? (fun cp => cp.comp_id == component_id) =
        some comp := by
  cases hf : c.components.find? (fun cp => cp.comp_id == component_id) with
  | some comp =>
    refine ⟨comp, c, ?_, hf⟩
    simp [mpam_component_get, hf]
  | none =>
    refine ⟨⟨component_id, ∅, []⟩,
      { c with components := ⟨component_id, ∅, []⟩ :: c.components }, ?_, ?_⟩
    · simp [mpam_component_get, hf]
    · have hp : (fun cp : CComponent => cp.comp_id == component_id)
          ⟨component_id, ∅, []⟩ = true := by simp
      simp [List.find?_cons_of_pos _ hp]

/-- Claim C7, counterexample: with ioremap failing, __mpam_device_create
returns -ENOMEM but the partially created device (mapped_hwpage = none) is
linked into the global device list and into the component device list of
the created class. The claim says the device is discarded. -/
theorem claim_C7_counterexample :
    (__mpam_device_create ⟨[], []⟩ 3 MpamClassType.MPAM_CLASS_MEMORY 7
        (some {2}) 4096 {0, 1, 2, 3} (fun _ => none) true true true).1 =
      .error (-ENOMEM) ∧
    (⟨{2}, 4096, none⟩ : CDevice) ∈
      (__mpam_device_create ⟨[], []⟩ 3 MpamClassType.MPAM_CLASS_MEMORY 7
        (some {2}) 4096 {0, 1, 2, 3} (fun _ => none) true true
        true).2.all_devices ∧
    (∃ c ∈ (__mpam_device_create ⟨[], []⟩ 3 MpamClassType.MPAM_CLASS_MEMORY 7
        (some {2}) 4096 {0, 1, 2, 3} (fun _ => none) true true
        true).2.classes,
      ∃ comp ∈ c.components, (⟨{2}, 4096, none⟩ : CDevice) ∈ comp.devices) := by
  refine ⟨by decide, by decide, by decide⟩

/-- Claim C7 as amended: if ioremap fails during device creation, the call
returns -ENOMEM, but the partially created device (with a null mapping) is
left linked at the head of the global device list and into a component of a
class of the topology; it is not discarded. -/
theorem claim_C7_ioremap_failure_leaves_device_linked (st : MpamTopology)
    (level_idx : Nat) (ty : MpamClassType) (component_id : Int)
    (fw_affinity : Option (Finset Nat)) (hwpage_address : Nat)
    (possible : Finset Nat) (ioremap : Nat → Option Nat)
    (hio : ioremap hwpage_address = none) :
    (__mpam_device_create st level_idx ty component_id fw_affinity
        hwpage_address possible ioremap true true true).1 =
      .error (-ENOMEM) ∧
    (__mpam_device_create st level_idx ty component_id fw_affinity
        hwpage_address possible ioremap true true true).2.all_devices =
      ({ fw_affinity := fw_affinity.getD possible,
         hwpage_address := hwpage_address, mapped_hwpage := none } : CDevice)
        :: st.all_devices ∧
    (∃ c ∈ (__mpam_device_create st level_idx ty component_id fw_affinity
        hwpage_address possible ioremap true true true).2.classes,
      ∃ comp ∈ c.components,
        ({ fw_affinity := fw_affinity.getD possible,
           hwpage_address := hwpage_address,
           mapped_hwpage := none } : CDevice) ∈ comp.devices) := by
  obtain ⟨c, st1, hcg, hall, hfind⟩ := mpam_class_get_ok st level_idx ty
  obtain ⟨comp, c2, hcomp, hfind2⟩ := mpam_component_get_ok c component_id
  simp only [__mpam_device_create, hcg, hcomp, if_pos trivial, hio,
    mpam_device_alloc, topology_put_class, class_put_component]
  refine ⟨by trivial, by rw [hall], ?_⟩
  refine ⟨_, updateFirst_mem_of_find? _ _ _ _ hfind, ?_⟩
  refine ⟨_, updateFirst_mem_of_find? _ _ _ _ hfind2, ?_⟩
  exact List.mem_cons_self _ _

/-- Witness for claim C7 as amended: the concrete inputs of the
counterexample satisfy the ioremap-failure hypothesis. -/
theorem claim_C7_witness :
    ((fun _ : Nat => (none : Option Nat)) 4096 = none) ∧
    ((__mpam_device_create ⟨[], []⟩ 2 MpamClassType.MPAM_CLASS_CACHE 5
        none 8192 {0, 1} (fun _ => none) true true true).1 =
      .error (-ENOMEM) ∧
    (__mpam_device_create ⟨[], []⟩ 2 MpamClassType.MPAM_CLASS_CACHE 5
        none 8192 {0, 1} (fun _ => none) true true true).2.all_devices =
      ({ fw_affinity := ({0, 1} : Finset Nat), hwpage_address := 8192,
         mapped_hwpage := none } : CDevice) :: [] ∧
    (∃ c ∈ (__mpam_device_create ⟨[], []⟩ 2 MpamClassType.MPAM_CLASS_CACHE 5
        none 8192 {0, 1} (fun _ => none) true true true).2.classes,
      ∃ comp ∈ c.components,
        ({ fw_affinity := ({0, 1} : Finset Nat), hwpage_address := 8192,
           mapped_hwpage := none } : CDevice) ∈ comp.devices)) :=
  ⟨rfl,
   claim_C7_ioremap_failure_leaves_device_linked ⟨[], []⟩ 2
     MpamClassType.MPAM_CLASS_CACHE 5 none 8192 {0, 1} (fun _ => none) rfl⟩

/-! ## The reset trace of one partition id -/

lemma mem_ite_singleton {α : Type} {P : Prop} [Decidable P] (x e : α) :
    e ∈ (if P then [x] else []) ↔ P ∧ e = x := by
  split_ifs with h <;> simp [h]

lemma mem_ite_list {α : Type} {P : Prop} [Decidable P] (l : List α) (e : α) :
    e ∈ (if P then l else []) ↔ P ∧ e ∈ l := by
  split_ifs with h <;> simp [h]

lemma GENMASK_zero_ne (h : Nat) : GENMASK h 0 ≠ 0 := by
  simp only [GENMASK, if_pos (Nat.zero_le h), pow_zero]
  have h2 : 2 ≤ 2 ^ (h + 1) := by
    calc (2 : Nat) = 2 ^ 1 := (pow_one 2).symm
    _ ≤ 2 ^ (h + 1) := Nat.pow_le_pow_right (by norm_num) (by omega)
  omega

lemma mem_reset_bitmap_shape (reg wd : Nat) (e : RegEvent)
    (h : e ∈ mpam_reset_device_bitmap reg wd) :
    ∃ i v, i ≤ wd / 32 ∧ e = RegEvent.write (reg + 4 * i) v := by
  simp only [mpam_reset_device_bitmap, List.mem_append, List.mem_map,
    List.mem_range] at h
  rcases h with ⟨i, hi, rfl⟩ | h
  · exact ⟨i, _, Nat.le_of_lt hi, rfl⟩
  · rw [mem_ite_singleton] at h
    exact ⟨wd / 32, _, le_refl _, h.2⟩

lemma reset_bitmap_base_mem (reg wd : Nat) :
    ∃ v, RegEvent.write reg v ∈ mpam_reset_device_bitmap reg wd := by
  rcases Nat.eq_zero_or_pos (wd / 32) with h32 | h32
  · refine ⟨GENMASK (wd % 32) 0, ?_⟩
    simp only [mpam_reset_device_bitmap, List.mem_append]
    right
    rw [mem_ite_singleton]
    refine ⟨GENMASK_zero_ne (wd % 32), ?_⟩
    rw [h32]
    simp
  · refine ⟨0xFFFFFFFF, ?_⟩
    simp only [mpam_reset_device_bitmap, List.mem_append, List.mem_map,
      List.mem_range]
    left
    exact ⟨0, h32, by simp⟩

lemma mem_reset_partid_writes (dev : MpamDevice) (e : RegEvent) :
    e ∈ mpam_reset_partid_writes dev ↔
      ((mpam_feat_ccap_part ∈ dev.features ∧
        e = RegEvent.write MPAMCFG_CMAX (GENMASK dev.cmax_wd 0 % 2 ^ 16)) ∨
      (mpam_feat_cpor_part ∈ dev.features ∧
        e ∈ mpam_reset_device_bitmap MPAMCFG_CPBM dev.cpbm_wd) ∨
      (mpam_feat_mbw_part ∈ dev.features ∧
        e ∈ mpam_reset_device_bitmap MPAMCFG_MBW_PBM dev.mbw_pbm_bits) ∨
      (mpam_feat_mbw_min ∈ dev.features ∧
        e = RegEvent.write MPAMCFG_MBW_MIN (GENMASK 15 dev.bwa_wd % 2 ^ 16)) ∨
      (mpam_feat_mbw_max ∈ dev.features ∧
        e = RegEvent.write MPAMCFG_MBW_MAX (GENMASK 15 dev.bwa_wd % 2 ^ 16)) ∨
      (mpam_feat_mbw_prop ∈ dev.features ∧
        e = RegEvent.write MPAMCFG_MBW_PROP (GENMASK 15 dev.bwa_wd % 2 ^ 16)) ∨
      ((mpam_feat_intpri_part ∈ dev.features ∨
          mpam_feat_dspri_part ∈ dev.features) ∧
        e = RegEvent.write MPAMCFG_PRI (mpam_reset_pri_val dev))) := by
  simp only [mpam_reset_partid_writes, List.mem_append, mem_ite_singleton,
    mem_ite_list, List.mem_singleton, or_assoc]

lemma exists_decomp_at2 {α : Type} (s1 s2 s3 s4 s5 s6 s7 : List α) :
    ∃ pre post, s1 ++ s2 ++ s3 ++ s4 ++ s5 ++ s6 ++ s7 = pre ++ s2 ++ post :=
  ⟨s1, s3 ++ s4 ++ s5 ++ s6 ++ s7, by simp [List.append_assoc]⟩

lemma exists_decomp_at3 {α : Type} (s1 s2 s3 s4 s5 s6 s7 : List α) :
    ∃ pre post, s1 ++ s2 ++ s3 ++ s4 ++ s5 ++ s6 ++ s7 = pre ++ s3 ++ post :=
  ⟨s1 ++ s2, s4 ++ s5 ++ s6 ++ s7, by simp [List.append_assoc]⟩

/-- Claim C3 as amended: for a device with at least one partition-selected
feature, the reset of one partition id performs, in order, the partition
selector write, the write-ordering barrier, then only configuration writes
(never to the selector) holding each present feature's default value --
capacity maximum GENMASK(cmax_wd, 0); all-ones cache-portion and
bandwidth-portion bitmaps covering bits 0 up to and including the reported
width; the bandwidth fraction GENMASK(15, bwa_wd) written to the bandwidth
minimum, maximum and proportion alike; the polarity-honouring priority
default -- and a final completion barrier; and mpam_reset_device emits this
block for every partition id from 0 up to the system-wide minimum. -/
theorem claim_C3_reset_partid_order (dev : MpamDevice)
    (partid max_partid : Nat)
    (getcfg : Nat → Option mpam_component_cfg_update)
    (hsel : mpam_has_part_sel dev.features = true)
    (hp : partid < max_partid)
    (hcp : dev.cpbm_wd < 32768) :
    (mpam_reset_device_partid dev partid =
        RegEvent.write MPAMCFG_PART_SEL partid :: RegEvent.wmb ::
          (mpam_reset_partid_writes dev ++ [RegEvent.mb]) ∧
      (∀ e ∈ mpam_reset_partid_writes dev,
        ∃ r v, e = RegEvent.write r v ∧ r ≠ MPAMCFG_PART_SEL) ∧
      (mpam_feat_ccap_part ∈ dev.features ↔
        RegEvent.write MPAMCFG_CMAX (GENMASK dev.cmax_wd 0 % 2 ^ 16) ∈
          mpam_reset_partid_writes dev) ∧
      (mpam_feat_mbw_min ∈ dev.features ↔
        RegEvent.write MPAMCFG_MBW_MIN (GENMASK 15 dev.bwa_wd % 2 ^ 16) ∈
          mpam_reset_partid_writes dev) ∧
      (mpam_feat_mbw_max ∈ dev.features ↔
        RegEvent.write MPAMCFG_MBW_MAX (GENMASK 15 dev.bwa_wd % 2 ^ 16) ∈
          mpam_reset_partid_writes dev) ∧
      (mpam_feat_mbw_prop ∈ dev.features ↔
        RegEvent.write MPAMCFG_MBW_PROP (GENMASK 15 dev.bwa_wd % 2 ^ 16) ∈
          mpam_reset_partid_writes dev) ∧
      (mpam_feat_cpor_part ∈ dev.features ↔
        ∃ pre post, mpam_reset_partid_writes dev =
          pre ++ mpam_reset_device_bitmap MPAMCFG_CPBM dev.cpbm_wd ++ post) ∧
      (mpam_feat_mbw_part ∈ dev.features ↔
        ∃ pre post, mpam_reset_partid_writes dev =
          pre ++ mpam_reset_device_bitmap MPAMCFG_MBW_PBM dev.mbw_pbm_bits
            ++ post) ∧
      ((mpam_feat_intpri_part ∈ dev.features ∨
          mpam_feat_dspri_part ∈ dev.features) ↔
        RegEvent.write MPAMCFG_PRI (mpam_reset_pri_val dev) ∈
          mpam_reset_partid_writes dev)) ∧
    (∃ pre post, mpam_reset_device dev max_partid getcfg =
      pre ++ mpam_reset_device_partid dev partid ++ post) := by
  constructor
  · refine ⟨?_, ?_, ?_, ?_, ?_, ?_, ?_, ?_, ?_⟩
    · simp [mpam_reset_device_partid, hsel]
    · intro e he
      rw [mem_reset_partid_writes] at he
      rcases he with ⟨-, rfl⟩ | ⟨-, hm⟩ | ⟨-, hm⟩ | ⟨-, rfl⟩ | ⟨-, rfl⟩ |
        ⟨-, rfl⟩ | ⟨-, rfl⟩
      · exact ⟨_, _, rfl, by decide⟩
      · obtain ⟨i, v, hi, rfl⟩ := mem_reset_bitmap_shape _ _ _ hm
        refine ⟨_, _, rfl, ?_⟩
        simp only [MPAMCFG_CPBM, MPAMCFG_PART_SEL]
        omega
      · obtain ⟨i, v, hi, rfl⟩ := mem_reset_bitmap_shape _ _ _ hm
        refine ⟨_, _, rfl, ?_⟩
        simp only [MPAMCFG_MBW_PBM, MPAMCFG_PART_SEL]
        omega
      · exact ⟨_, _, rfl, by decide⟩
      · exact ⟨_, _, rfl, by decide⟩
      · exact ⟨_, _, rfl, by decide⟩
      · exact ⟨_, _, rfl, by decide⟩
    · constructor
      · intro h
        rw [mem_reset_partid_writes]
        exact Or.inl ⟨h, rfl⟩
      · intro h
        rw [mem_reset_partid_writes] at h
        rcases h with ⟨hf, -⟩ | ⟨-, hm⟩ | ⟨-, hm⟩ | ⟨-, he⟩ | ⟨-, he⟩ |
          ⟨-, he⟩ | ⟨-, he⟩
        · exact hf
        · obtain ⟨i, v, hi, he⟩ := mem_reset_bitmap_shape _ _ _ hm
          injection he with h1 h2
          simp only [MPAMCFG_CMAX, MPAMCFG_CPBM] at h1
          omega
        · obtain ⟨i, v, hi, he⟩ := mem_reset_bitmap_shape _ _ _ hm
          injection he with h1 h2
          simp only [MPAMCFG_CMAX, MPAMCFG_MBW_PBM] at h1
          omega
        · injection he with h1 h2
          simp only [MPAMCFG_CMAX, MPAMCFG_MBW_MIN] at h1
          omega
        · injection he with h1 h2
          simp only [MPAMCFG_CMAX, MPAMCFG_MBW_MAX] at h1
          omega
        · injection he with h1 h2
          simp only [MPAMCFG_CMAX, MPAMCFG_MBW_PROP] at h1
          omega
        · injection he with h1 h2
          simp only [MPAMCFG_CMAX, MPAMCFG_PRI] at h1
          omega
    · constructor
      · intro h
        rw [mem_reset_partid_writes]
        exact Or.inr (Or.inr (Or.inr (Or.inl ⟨h, rfl⟩)))
      · intro h
        rw [mem_reset_partid_writes] at h
        rcases h with ⟨-, he⟩ | ⟨-, hm⟩ | ⟨-, hm⟩ | ⟨hf, -⟩ | ⟨-, he⟩ |
          ⟨-, he⟩ | ⟨-, he⟩
        · injection he with h1 h2
          simp only [MPAMCFG_MBW_MIN, MPAMCFG_CMAX] at h1
          omega
        · obtain ⟨i, v, hi, he⟩ := mem_reset_bitmap_shape _ _ _ hm
          injection he with h1 h2
          simp only [MPAMCFG_MBW_MIN, MPAMCFG_CPBM] at h1
          omega
        · obtain ⟨i, v, hi, he⟩ := mem_reset_bitmap_shape _ _ _ hm
          injection he with h1 h2
          simp only [MPAMCFG_MBW_MIN, MPAMCFG_MBW_PBM] at h1
          omega
        · exact hf
        · injection he with h1 h2
          simp only [MPAMCFG_MBW_MIN, MPAMCFG_MBW_MAX] at h1
          omega
        · injection he with h1 h2
          simp only [MPAMCFG_MBW_MIN, MPAMCFG_MBW_PROP] at h1
          omega
        · injection he with h1 h2
          simp only [MPAMCFG_MBW_MIN, MPAMCFG_PRI] at h1
          omega
    · constructor
      · intro h
        rw [mem_reset_partid_writes]
        exact Or.inr (Or.inr (Or.inr (Or.inr (Or.inl ⟨h, rfl⟩))))
      · intro h
        rw [mem_reset_partid_writes] at h
        rcases h with ⟨-, he⟩ | ⟨-, hm⟩ | ⟨-, hm⟩ | ⟨-, he⟩ | ⟨hf, -⟩ |
          ⟨-, he⟩ | ⟨-, he⟩
        · injection he with h1 h2
          simp only [MPAMCFG_MBW_MAX, MPAMCFG_CMAX] at h1
          omega
        · obtain ⟨i, v, hi, he⟩ := mem_reset_bitmap_shape _ _ _ hm
          injection he with h1 h2
          simp only [MPAMCFG_MBW_MAX, MPAMCFG_CPBM] at h1
          omega
        · obtain ⟨i, v, hi, he⟩ := mem_reset_bitmap_shape _ _ _ hm
          injection he with h1 h2
          simp only [MPAMCFG_MBW_MAX, MPAMCFG_MBW_PBM] at h1
          omega
        · injection he with h1 h2
          simp only [MPAMCFG_MBW_MAX, MPAMCFG_MBW_MIN] at h1
          omega
        · exact hf
        · injection he with h1 h2
          simp only [MPAMCFG_MBW_MAX, MPAMCFG_MBW_PROP] at h1
          omega
        · injection he with h1 h2
          simp only [MPAMCFG_MBW_MAX, MPAMCFG_PRI] at h1
          omega
    · constructor
      · intro h
        rw [mem_reset_partid_writes]
        exact Or.inr (Or.inr (Or.inr (Or.inr (Or.inr (Or.inl ⟨h, rfl⟩)))))
      · intro h
        rw [mem_reset_partid_writes] at h
        rcases h with ⟨-, he⟩ | ⟨-, hm⟩ | ⟨-, hm⟩ | ⟨-, he⟩ | ⟨-, he⟩ |
          ⟨hf, -⟩ | ⟨-, he⟩
        · injection he with h1 h2
          simp only [MPAMCFG_MBW_PROP, MPAMCFG_CMAX] at h1
          omega
        · obtain ⟨i, v, hi, he⟩ := mem_reset_bitmap_shape _ _ _ hm
          injection he with h1 h2
          simp only [MPAMCFG_MBW_PROP, MPAMCFG_CPBM] at h1
          omega
        · obtain ⟨i, v, hi, he⟩ := mem_reset_bitmap_shape _ _ _ hm
          injection he with h1 h2
          simp only [MPAMCFG_MBW_PROP, MPAMCFG_MBW_PBM] at h1
          omega
        · injection he with h1 h2
          simp only [MPAMCFG_MBW_PROP, MPAMCFG_MBW_MIN] at h1
          omega
        · injection he with h1 h2
          simp only [MPAMCFG_MBW_PROP, MPAMCFG_MBW_MAX] at h1
          omega
        · exact hf
        · injection he with h1 h2
          simp only [MPAMCFG_MBW_PROP, MPAMCFG_PRI] at h1
          omega
    · constructor
      · intro h
        simp only [mpam_reset_partid_writes]
        rw [if_pos h]
        exact exists_decomp_at2 _ _ _ _ _ _ _
      · intro h
        obtain ⟨pre, post, hdec⟩ := h
        obtain ⟨v, hv⟩ := reset_bitmap_base_mem MPAMCFG_CPBM dev.cpbm_wd
        have hmem : RegEvent.write MPAMCFG_CPBM v ∈
            mpam_reset_partid_writes dev := by
          rw [hdec]
          simp only [List.mem_append]
          exact Or.inl (Or.inr hv)
        rw [mem_reset_partid_writes] at hmem
        rcases hmem with ⟨-, he⟩ | ⟨hf, -⟩ | ⟨-, hm⟩ | ⟨-, he⟩ | ⟨-, he⟩ |
          ⟨-, he⟩ | ⟨-, he⟩
        · injection he with h1 h2
          simp only [MPAMCFG_CPBM, MPAMCFG_CMAX] at h1
          omega
        · exact hf
        · obtain ⟨i, v2, hi, he⟩ := mem_reset_bitmap_shape _ _ _ hm
          injection he with h1 h2
          simp only [MPAMCFG_CPBM, MPAMCFG_MBW_PBM] at h1
          omega
        · injection he with h1 h2
          simp only [MPAMCFG_CPBM, MPAMCFG_MBW_MIN] at h1
          omega
        · injection he with h1 h2
          simp only [MPAMCFG_CPBM, MPAMCFG_MBW_MAX] at h1
          omega
        · injection he with h1 h2
          simp only [MPAMCFG_CPBM, MPAMCFG_MBW_PROP] at h1
          omega
        · injection he with h1 h2
          simp only [MPAMCFG_CPBM, MPAMCFG_PRI] at h1
          omega
    · constructor
      · intro h
        simp only [mpam_reset_partid_writes]
        rw [if_pos h]
        exact exists_decomp_at3 _ _ _ _ _ _ _
      · intro h
        obtain ⟨pre, post, hdec⟩ := h
        obtain ⟨v, hv⟩ := reset_bitmap_base_mem MPAMCFG_MBW_PBM
          dev.mbw_pbm_bits
        have hmem : RegEvent.write MPAMCFG_MBW_PBM v ∈
            mpam_reset_partid_writes dev := by
          rw [hdec]
          simp only [List.mem_append]
          exact Or.inl (Or.inr hv)
        rw [mem_reset_partid_writes] at hmem
        rcases hmem with ⟨-, he⟩ | ⟨-, hm⟩ | ⟨hf, -⟩ | ⟨-, he⟩ | ⟨-, he⟩ |
          ⟨-, he⟩ | ⟨-, he⟩
        · injection he with h1 h2
          simp only [MPAMCFG_MBW_PBM, MPAMCFG_CMAX] at h1
          omega
        · obtain ⟨i, v2, hi, he⟩ := mem_reset_bitmap_shape _ _ _ hm
          injection he with h1 h2
          simp only [MPAMCFG_MBW_PBM, MPAMCFG_CPBM] at h1
          omega
        · exact hf
        · injection he with h1 h2
          simp only [MPAMCFG_MBW_PBM, MPAMCFG_MBW_MIN] at h1
          omega
        · injection he with h1 h2
          simp only [MPAMCFG_MBW_PBM, MPAMCFG_MBW_MAX] at h1
          omega
        · injection he with h1 h2
          simp only [MPAMCFG_MBW_PBM, MPAMCFG_MBW_PROP] at h1
          omega
        · injection he with h1 h2
          simp only [MPAMCFG_MBW_PBM, MPAMCFG_PRI] at h1
          omega
    · constructor
      · intro h
        rw [mem_reset_partid_writes]
        exact Or.inr (Or.inr (Or.inr (Or.inr (Or.inr (Or.inr ⟨h, rfl⟩)))))
      · intro h
        rw [mem_reset_partid_writes] at h
        rcases h with ⟨-, he⟩ | ⟨-, hm⟩ | ⟨-, hm⟩ | ⟨-, he⟩ | ⟨-, he⟩ |
          ⟨-, he⟩ | ⟨hf, -⟩
        · injection he with h1 h2
          simp only [MPAMCFG_PRI, MPAMCFG_CMAX] at h1
          omega
        · obtain ⟨i, v, hi, he⟩ := mem_reset_bitmap_shape _ _ _ hm
          injection he with h1 h2
          simp only [MPAMCFG_PRI, MPAMCFG_CPBM] at h1
          omega
        · obtain ⟨i, v, hi, he⟩ := mem_reset_bitmap_shape _ _ _ hm
          injection he with h1 h2
          simp only [MPAMCFG_PRI, MPAMCFG_MBW_PBM] at h1
          omega
        · injection he with h1 h2
          simp only [MPAMCFG_PRI, MPAMCFG_MBW_MIN] at h1
          omega
        · injection he with h1 h2
          simp only [MPAMCFG_PRI, MPAMCFG_MBW_MAX] at h1
          omega
        · injection he with h1 h2
          simp only [MPAMCFG_PRI, MPAMCFG_MBW_PROP] at h1
          omega
        · exact hf
  · obtain ⟨l1, l2, hr⟩ :=
      List.append_of_mem (List.mem_range.mpr hp)
    refine ⟨(if dev.enable_error_irq then
        [RegEvent.write MPAMF_ECR MPAMF_ECR_INTEN] else []) ++
      l1.flatMap (fun p => mpam_reset_device_partid dev p ++
        (match getcfg p with
         | some cfg => (__apply_config dev cfg).2
         | none => [])),
      (match getcfg partid with
       | some cfg => (__apply_config dev cfg).2
       | none => []) ++
      l2.flatMap (fun p => mpam_reset_device_partid dev p ++
        (match getcfg p with
         | some cfg => (__apply_config dev cfg).2
         | none => [])), ?_⟩
    simp only [mpam_reset_device]
    rw [hr]
    simp [List.append_assoc]

/-- Claim C3, counterexample: on a device with the bandwidth-minimum
feature (bwa_wd = 4) and cache-portion partitioning (width 13), the reset
of partition id 0 writes GENMASK(15, 4) = 65520 to the bandwidth minimum
(the claim says zero is written) and writes the 14-bit mask 16383 =
GENMASK(13, 0) as the cache-portion bitmap (the claim says an all-ones
bitmap of exactly the reported width 13, which would be 8191). -/
theorem claim_C3_counterexample :
    mpam_feat_mbw_min ∈ exDevC3.features ∧
    RegEvent.write MPAMCFG_MBW_MIN 65520 ∈
      mpam_reset_device_partid exDevC3 0 ∧
    RegEvent.write MPAMCFG_MBW_MIN 0 ∉ mpam_reset_device_partid exDevC3 0 ∧
    mpam_feat_cpor_part ∈ exDevC3.features ∧
    RegEvent.write MPAMCFG_CPBM 16383 ∈
      mpam_reset_device_partid exDevC3 0 ∧
    RegEvent.write MPAMCFG_CPBM 8191 ∉ mpam_reset_device_partid exDevC3 0 := by
  refine ⟨by decide, by decide, by decide, by decide, by decide, by decide⟩

/-- Witness for claim C3 as amended: the example device has a
partition-selected feature and a small bitmap width, and the reset of
partition id 0 occurs inside the full device reset over one partition. -/
theorem claim_C3_witness :
    (mpam_has_part_sel exDevC3.features = true ∧ 0 < 1 ∧
      exDevC3.cpbm_wd < 32768) ∧
    (∃ pre post, mpam_reset_device exDevC3 1 (fun _ => none) =
      pre ++ mpam_reset_device_partid exDevC3 0 ++ post) :=
  ⟨⟨by decide, by decide, by decide⟩,
   (claim_C3_reset_partid_order exDevC3 0 1 (fun _ => none) (by decide)
     (by decide) (by decide)).2⟩

/-! ## The broadcaster with one device per distinct core -/

lemma cpumask_any_singleton (c : Nat) : cpumask_any {c} = c := by
  simp only [cpumask_any, Finset.min_singleton]
  rfl

lemma pendingFor_nil_of_ne (U : Finset Nat) (c : Nat)
    (l : List (Nat × Nat)) (h : ∀ q ∈ l, q.2 ≠ c) :
    pendingFor U c l = [] := by
  induction l with
  | nil => rfl
  | cons q ps ih =>
    rw [pendingFor, if_neg]
    · exact ih fun r hr => h r (List.mem_cons_of_mem q hr)
    · rintro ⟨-, hq⟩
      exact h q (List.mem_cons_self q ps) hq

lemma pendingFor_singleton (pairs : List (Nat × Nat)) (p0 : Nat × Nat)
    (U : Finset Nat) (hnd : (pairs.map Prod.snd).Nodup) (hmem : p0 ∈ pairs)
    (hU : p0.2 ∉ U) :
    pendingFor U p0.2 pairs = [p0] := by
  induction pairs with
  | nil => cases hmem
  | cons q ps ih =>
    rcases List.mem_cons.mp hmem with heq | hmem'
    · subst heq
      rw [pendingFor, if_pos ⟨hU, rfl⟩]
      have hne : ∀ r ∈ ps, r.2 ≠ p0.2 := by
        intro r hr hr2
        have := (List.nodup_cons.mp hnd).1
        exact this (hr2 ▸ List.mem_map_of_mem Prod.snd hr)
      rw [pendingFor_nil_of_ne U p0.2 ps hne]
    · have hq2 : q.2 ≠ p0.2 := by
        intro he
        have := (List.nodup_cons.mp hnd).1
        exact this (he ▸ List.mem_map_of_mem Prod.snd hmem')
      rw [pendingFor, if_neg]
      · exact ih (List.nodup_cons.mp hnd).2 hmem'
      · rintro ⟨-, hq⟩
        exact hq2 hq

lemma remotePending_all (U : Finset Nat) (l : List (Nat × Nat))
    (h : ∀ q ∈ l, q.2 ∉ U) : remotePending U l = l := by
  induction l with
  | nil => rfl
  | cons q ps ih =>
    rw [remotePending, if_pos (h q (List.mem_cons_self q ps))]
    rw [ih fun r hr => h r (List.mem_cons_of_mem q hr)]

lemma remotePending_insert_ne (U : Finset Nat) (a : Nat)
    (l : List (Nat × Nat)) (h : ∀ q ∈ l, q.2 ≠ a) :
    remotePending (insert a U) l = remotePending U l := by
  induction l with
  | nil => rfl
  | cons q ps ih =>
    have hq := h q (List.mem_cons_self q ps)
    have ih' := ih fun r hr => h r (List.mem_cons_of_mem q hr)
    by_cases hm : q.2 ∈ U
    · rw [remotePending, if_neg, remotePending, if_neg, ih']
      · simp [hm]
      · simp [Finset.mem_insert, hm]
    · rw [remotePending, if_pos, remotePending, if_pos hm, ih']
      simp [Finset.mem_insert, hm, hq]

lemma perm_cons_remotePending (pairs : List (Nat × Nat)) (p0 : Nat × Nat)
    (hnd : (pairs.map Prod.snd).Nodup) (hmem : p0 ∈ pairs) :
    (p0 :: remotePending {p0.2} pairs).Perm pairs := by
  induction pairs with
  | nil => cases hmem
  | cons q ps ih =>
    rcases List.mem_cons.mp hmem with heq | hmem'
    · subst heq
      rw [remotePending, if_neg (by simp)]
      have hne : ∀ r ∈ ps, r.2 ∉ ({p0.2} : Finset Nat) := by
        intro r hr
        simp only [Finset.mem_singleton]
        intro hr2
        exact (List.nodup_cons.mp hnd).1
          (hr2 ▸ List.mem_map_of_mem Prod.snd hr)
      rw [remotePending_all _ _ hne]
    · have hq2 : q.2 ∉ ({p0.2} : Finset Nat) := by
        simp only [Finset.mem_singleton]
        intro he
        exact (List.nodup_cons.mp hnd).1
          (he ▸ List.mem_map_of_mem Prod.snd hmem')
      rw [remotePending, if_pos hq2]
      exact (List.Perm.swap q p0 _).trans
        ((ih (List.nodup_cons.mp hnd).2 hmem').cons q)

lemma local_foldl_char (applyRes : Nat → Int) (c : Nat)
    (pairs : List (Nat × Nat)) (st : ApplyState)
    (hz : ∀ p ∈ pairs, applyRes p.1 = 0) :
    (pairs.map singDev).foldl (apply_all_local_step applyRes c) st =
      { st with attempts := st.attempts ++
          (pendingFor st.updated_on c pairs).map Prod.fst } := by
  induction pairs generalizing st with
  | nil => simp [pendingFor]
  | cons p ps ih =>
    have hz' : ∀ q ∈ ps, applyRes q.1 = 0 :=
      fun q hq => hz q (List.mem_cons_of_mem p hq)
    simp only [List.map_cons, List.foldl_cons]
    by_cases hm : p.2 ∈ st.updated_on
    · have hstep : apply_all_local_step applyRes c st (singDev p) = st := by
        simp [apply_all_local_step, singDev,
          Finset.singleton_inter_of_mem hm]
      rw [hstep, ih st hz', pendingFor, if_neg]
      rintro ⟨hn, -⟩
      exact hn hm
    · by_cases hc : p.2 = c
      · subst hc
        have hstep : apply_all_local_step applyRes p.2 st (singDev p) =
            { st with attempts := st.attempts ++ [p.1] } := by
          simp [apply_all_local_step, singDev,
            Finset.singleton_inter_of_not_mem hm, record_first_error,
            hz p (List.mem_cons_self p ps)]
        rw [hstep, ih _ hz', pendingFor, if_pos ⟨hm, rfl⟩]
        simp [List.append_assoc]
      · have hstep : apply_all_local_step applyRes c st (singDev p) = st := by
          simp [apply_all_local_step, singDev,
            Finset.singleton_inter_of_not_mem hm, Finset.mem_singleton]
          intro hcc
          exact absurd hcc.symm hc
        rw [hstep, ih st hz', pendingFor, if_neg]
        rintro ⟨-, hcc⟩
        exact hc hcc
    
lemma local_pass_char (applyRes : Nat → Int) (c : Nat)
    (pairs : List (Nat × Nat)) (st : ApplyState)
    (hz : ∀ p ∈ pairs, applyRes p.1 = 0) :
    mpam_component_apply_all_local applyRes c (pairs.map singDev) st =
      { st with
        updated_on := insert c st.updated_on,
        attempts := st.attempts ++
          (pendingFor st.updated_on c pairs).map Prod.fst } := by
  simp only [mpam_component_apply_all_local,
    local_foldl_char applyRes c pairs st hz]

lemma remote_char (applyRes : Nat → Int) (pairs : List (Nat × Nat))
    (hz : ∀ p ∈ pairs, applyRes p.1 = 0)
    (hnd : (pairs.map Prod.snd).Nodup) :
    ∀ rest : List (Nat × Nat), rest.Sublist pairs →
      ∀ st : ApplyState, st.first_error = 0 →
      mpam_component_apply_all_remote applyRes (pairs.map singDev)
          (rest.map singDev) st =
        { st with
          updated_on := st.updated_on ∪
            ((remotePending st.updated_on rest).map Prod.snd).toFinset,
          attempts := st.attempts ++
            (remotePending st.updated_on rest).map Prod.fst,
          dispatches := st.dispatches ++
            (remotePending st.updated_on rest).map Prod.snd } := by
  intro rest
  induction rest with
  | nil =>
    intro hsub st hfe
    simp [mpam_component_apply_all_remote, remotePending]
  | cons p rest' ih =>
    intro hsub st hfe
    have hsub' : rest'.Sublist pairs :=
      (List.sublist_cons_self p rest').trans hsub
    have hp : p ∈ pairs := hsub.subset (List.mem_cons_self p rest')
    have hnd2 : ((p :: rest').map Prod.snd).Nodup :=
      hnd.sublist (hsub.map Prod.snd)
    have hne : ∀ q ∈ rest', q.2 ≠ p.2 := by
      intro q hq he
      exact (List.nodup_cons.mp hnd2).1
        (he ▸ List.mem_map_of_mem Prod.snd hq)
    rw [List.map_cons, mpam_component_apply_all_remote]
    rw [if_neg (by simp [hfe])]
    by_cases hm : p.2 ∈ st.updated_on
    · have hcond : (singDev p).online_affinity ∩ st.updated_on ≠ ∅ := by
        simp [singDev, Finset.singleton_inter_of_mem hm]
      rw [if_pos hcond, ih hsub' st hfe, remotePending,
        if_neg (not_not_intro hm)]
    · have hcond : ¬ ((singDev p).online_affinity ∩ st.updated_on ≠ ∅) := by
        simp [singDev, Finset.singleton_inter_of_not_mem hm]
      rw [if_neg hcond]
      have hany : cpumask_any (singDev p).online_affinity = p.2 :=
        cpumask_any_singleton p.2
      rw [hany]
      dsimp only
      rw [local_pass_char applyRes p.2 pairs _ hz]
      have hpend : pendingFor st.updated_on p.2 pairs = [p] :=
        pendingFor_singleton pairs p st.updated_on hnd hp hm
      rw [hpend]
      dsimp only
      rw [ih hsub' ⟨insert p.2 st.updated_on, st.first_error,
        st.attempts ++ List.map Prod.fst [p], st.dispatches ++ [p.2]⟩ hfe]
      dsimp only
      rw [remotePending_insert_ne st.updated_on p.2 rest' hne]
      rw [remotePending, if_pos hm]
      simp only [ApplyState.mk.injEq, List.map_cons, List.toFinset_cons]
      refine ⟨?_, trivial, ?_, ?_⟩
      · ext x
        simp only [Finset.mem_union, Finset.mem_insert]
        tauto
      · simp
      · simp

/-- Claim C5: a broadcast over a component whose devices have pairwise
distinct single-core online affinities, initiated from the core of one of
them (reachable in the component firmware affinity), with every per-device
apply succeeding, attempts the apply exactly once per device (the attempt
list is a permutation of the device ids, of full length) and issues exactly
N - 1 remote dispatches. -/
theorem claim_C5_broadcast_exactly_once (applyRes : Nat → Int)
    (pairs : List (Nat × Nat)) (fw : Finset Nat) (k : Nat)
    (hk : k < pairs.length)
    (hz : ∀ p ∈ pairs, applyRes p.1 = 0)
    (hnd : (pairs.map Prod.snd).Nodup)
    (hfw : (pairs.get ⟨k, hk⟩).2 ∈ fw) :
    (mpam_component_apply_all applyRes fw (pairs.map singDev)
        (pairs.get ⟨k, hk⟩).2).first_error = 0 ∧
    (mpam_component_apply_all applyRes fw (pairs.map singDev)
        (pairs.get ⟨k, hk⟩).2).attempts.Perm (pairs.map Prod.fst) ∧
    (mpam_component_apply_all applyRes fw (pairs.map singDev)
        (pairs.get ⟨k, hk⟩).2).attempts.length = pairs.length ∧
    (mpam_component_apply_all applyRes fw (pairs.map singDev)
        (pairs.get ⟨k, hk⟩).2).dispatches.length = pairs.length - 1 := by
  have hp0 : pairs.get ⟨k, hk⟩ ∈ pairs := List.get_mem pairs k hk
  have hrun : mpam_component_apply_all applyRes fw (pairs.map singDev)
      (pairs.get ⟨k, hk⟩).2 =
      { updated_on := {(pairs.get ⟨k, hk⟩).2} ∪
          ((remotePending {(pairs.get ⟨k, hk⟩).2} pairs).map
            Prod.snd).toFinset,
        first_error := 0,
        attempts := [(pairs.get ⟨k, hk⟩).1] ++
          (remotePending {(pairs.get ⟨k, hk⟩).2} pairs).map Prod.fst,
        dispatches := [] ++
          (remotePending {(pairs.get ⟨k, hk⟩).2} pairs).map Prod.snd } := by
    rw [mpam_component_apply_all]
    rw [if_pos hfw]
    rw [local_pass_char applyRes _ pairs _ hz]
    rw [pendingFor_singleton pairs _ ∅ hnd hp0 (Finset.not_mem_empty _)]
    rw [remote_char applyRes pairs hz hnd pairs (List.Sublist.refl pairs)
      _ rfl]
    rfl
  have hperm : ((pairs.get ⟨k, hk⟩) ::
      remotePending {(pairs.get ⟨k, hk⟩).2} pairs).Perm pairs :=
    perm_cons_remotePending pairs _ hnd hp0
  rw [hrun]
  refine ⟨rfl, ?_, ?_, ?_⟩
  · have := hperm.map Prod.fst
    simpa using this
  · have hlen := hperm.length_eq
    simp only [List.length_cons] at hlen
    simp [← hlen]
  · have hlen := hperm.length_eq
    simp only [List.length_cons] at hlen
    simp [← hlen]

/-- Witness for claim C5: two devices with ids 10 and 11 on distinct cores
0 and 1, broadcast initiated from core 0: both devices are applied once and
a single remote dispatch is issued. -/
theorem claim_C5_witness :
    (0 < ([(10, 0), (11, 1)] : List (Nat × Nat)).length ∧
      (∀ p ∈ ([(10, 0), (11, 1)] : List (Nat × Nat)),
        (fun _ : Nat => (0 : Int)) p.1 = 0) ∧
      (([(10, 0), (11, 1)] : List (Nat × Nat)).map Prod.snd).Nodup) ∧
    (mpam_component_apply_all (fun _ => 0) {0}
        (([(10, 0), (11, 1)] : List (Nat × Nat)).map singDev)
        0).attempts.length = 2 ∧
    (mpam_component_apply_all (fun _ => 0) {0}
        (([(10, 0), (11, 1)] : List (Nat × Nat)).map singDev)
        0).dispatches.length = 1 :=
  ⟨⟨by decide, by decide, by decide⟩,
   (claim_C5_broadcast_exactly_once (fun _ => 0) [(10, 0), (11, 1)] {0} 0
     (by decide) (by decide) (by decide) (by decide)).2.2.1,
   (claim_C5_broadcast_exactly_once (fun _ => 0) [(10, 0), (11, 1)] {0} 0
     (by decide) (by decide) (by decide) (by decide)).2.2.2⟩
